import Mathlib

/-!
Verification development for the Splice batch license generator extension.

The JavaScript sources are shallowly embedded: every function below is a
direct translation of the correspondingly named function in the repository.
Asynchronous browser calls (message passing, cookie queries, tab queries,
storage reads, fetches) are modelled as explicit environment records whose
fields give the outcome of each external call; a JavaScript promise
rejection or thrown error is an `Except.error` carrying the error message
string.  JavaScript strings are Lean `String`s, `toLowerCase` is
character-wise lowering, `includes` is substring containment on the
character list.
-/

/-- Character-wise lowering, the embedding of JavaScript
`String.prototype.toLowerCase` for the ASCII names this program handles. -/
def jsToLower (s : String) : String := String.mk (s.data.map Char.toLower)

/-- Embedding of JavaScript `hay.includes(sub)`: `sub` occurs contiguously
inside `hay`. -/
def strIncludes (hay sub : String) : Bool := decide (sub.data <:+: hay.data)

/-- Embedding of the JavaScript idiom `o || d` on an optional string: the
default is used when the value is `null`/`undefined` or the empty string
(both falsy). -/
def orDefaultStr (o : Option String) (d : String) : String :=
  match o with
  | none => d
  | some s => if s == "" then d else s

/-! ## `ExtensionUtils.validateSampleInput` (src/shared/utils.js, lines 150-180) -/

/-- Result record of `validateSampleInput`. -/
structure ValidationResult where
  isValid : Bool
  errors : List String
  samples : List String

/-- Splitting on newline characters, the embedding of
`input.split('\n')`: an accumulator-based scan, so that it computes by
structural recursion. -/
def splitLinesAux (cur : List Char) : List Char → List String
  | [] => [String.mk cur.reverse]
  | c :: rest =>
    if c = '\n' then String.mk cur.reverse :: splitLinesAux [] rest
    else splitLinesAux (c :: cur) rest

/-- JavaScript `input.split('\n')`. -/
def jsSplitLines (s : String) : List String := splitLinesAux [] s.data

/-- JavaScript `s.trim()`: whitespace removed from both ends. -/
def jsTrim (s : String) : String :=
  String.mk (((s.data.dropWhile Char.isWhitespace).reverse.dropWhile Char.isWhitespace).reverse)

/-- The cleaned sample list: `input.split('\n').map(s => s.trim()).filter(s => s.length > 0)`. -/
def cleanSamples (input : String) : List String :=
  ((jsSplitLines input).map jsTrim).filter (fun s => s.length > 0)

/-- Embedding of `ExtensionUtils.validateSampleInput`.  The JavaScript guard
`!input` is the empty-string test here, since the embedding fixes the input
to be a string. -/
def validateSampleInput (input : String) : ValidationResult :=
  if input = "" then
    { isValid := false, errors := ["Input is required"], samples := [] }
  else
    let samples := cleanSamples input
    let errors :=
      (if samples.length = 0 then ["At least one sample name is required"] else []) ++
      (if samples.length > 20 then ["Maximum 20 samples allowed per batch"] else [])
    { isValid := errors.isEmpty
      errors := errors
      samples := if errors.isEmpty then samples else [] }

/-! ## `PopupManager.findBestMatch` (src/popup/popup.js, lines 579-602) -/

/-- An asset candidate as delivered by the resolver: `name` is `none` when
the record has no `name` property. -/
structure Candidate where
  id : String
  name : Option String
  inLibrary : Bool
deriving DecidableEq

/-- Exact-match test, `result.name && result.name.toLowerCase() === sampleName.toLowerCase()`;
the first conjunct is JavaScript truthiness, failing on a missing or empty name. -/
def nameMatchesExact (sampleName : String) (c : Candidate) : Bool :=
  match c.name with
  | none => false
  | some n => (n != "") && (jsToLower n == jsToLower sampleName)

/-- Partial-match test, `result.name && result.name.toLowerCase().includes(sampleName.toLowerCase())`. -/
def nameMatchesPartial (sampleName : String) (c : Candidate) : Bool :=
  match c.name with
  | none => false
  | some n => (n != "") && strIncludes (jsToLower n) (jsToLower sampleName)

/-- Embedding of `PopupManager.findBestMatch`: exact match first, then
partial match, then the first result. -/
def findBestMatch (sampleName : String) (searchResults : List Candidate) : Option Candidate :=
  if searchResults.isEmpty then none
  else
    match searchResults.find? (nameMatchesExact sampleName) with
    | some c => some c
    | none =>
      match searchResults.find? (nameMatchesPartial sampleName) with
      | some c => some c
      | none => searchResults.head?

/-- Exact-match test as the specification words it: case-insensitive string
equality with the candidate's display name, with no truthiness guard. -/
def selectSpecExact (name : String) (c : Candidate) : Bool :=
  match c.name with
  | none => false
  | some n => jsToLower n == jsToLower name

/-- Partial-match test as the specification words it. -/
def selectSpecPartial (name : String) (c : Candidate) : Bool :=
  match c.name with
  | none => false
  | some n => strIncludes (jsToLower n) (jsToLower name)

/-- The Match Selector as the specification describes it: tier (1)
case-insensitive equality, tier (2) case-insensitive substring containment,
tier (3) first candidate; `none` only on the empty list. -/
def selectSpec (name : String) (candidates : List Candidate) : Option Candidate :=
  match candidates.find? (selectSpecExact name) with
  | some c => some c
  | none =>
    match candidates.find? (selectSpecPartial name) with
    | some c => some c
    | none => candidates.head?

/-! ## Base64 (`btoa` / `atob`), the storage obfuscation transport

The host's `btoa` throws on code points above 255 and `atob` implements
forgiving base64 (ASCII whitespace ignored, optional padding); both are
modelled as `Option`-returning functions, `none` standing for a thrown
`InvalidCharacterError`. -/

/-- The base64 alphabet in index order. -/
def b64Alphabet : List Char :=
  (List.range 64).map (fun i =>
    if i < 26 then Char.ofNat (65 + i)
    else if i < 52 then Char.ofNat (71 + i)
    else if i < 62 then Char.ofNat (i - 4)
    else if i = 62 then '+' else '/')

/-- Character for a sextet value. -/
def sextetChar (n : Nat) : Char := b64Alphabet.getD n 'A'

/-- Helper scanning the alphabet for a character's sextet value. -/
def b64IndexAux : List Char → Nat → Char → Option Nat
  | [], _, _ => none
  | a :: rest, i, c => if a = c then some i else b64IndexAux rest (i + 1) c

/-- Sextet value of a base64 character, `none` on a character outside the
alphabet. -/
def b64Index (c : Char) : Option Nat := b64IndexAux b64Alphabet 0 c

/-- Base64 encoding of a byte list, with `'='` padding. -/
def encodeBytes : List Nat → List Char
  | [] => []
  | [a] => [sextetChar (a / 4), sextetChar (a % 4 * 16), '=', '=']
  | [a, b] => [sextetChar (a / 4), sextetChar (a % 4 * 16 + b / 16), sextetChar (b % 16 * 4), '=']
  | a :: b :: c :: rest =>
    sextetChar (a / 4) :: sextetChar (a % 4 * 16 + b / 16) ::
    sextetChar (b % 16 * 4 + c / 64) :: sextetChar (c % 64) :: encodeBytes rest

/-- Embedding of `btoa`: `none` models the `InvalidCharacterError` thrown on
a code point above 255. -/
def btoaStr (s : String) : Option String :=
  if s.data.all (fun c => c.toNat < 256) then
    some (String.mk (encodeBytes (s.data.map Char.toNat)))
  else none

/-- ASCII whitespace ignored by forgiving base64 decoding. -/
def isB64Space (c : Char) : Bool :=
  c == '\x09' || c == '\x0a' || c == '\x0c' || c == '\x0d' || c == '\x20'

/-- Removal of up to two trailing pad characters, phrased on the reversed
list. -/
def dropPadRev : List Char → List Char
  | [] => []
  | [c] => if c = '=' then [] else [c]
  | c1 :: c2 :: r => if c1 = '=' then (if c2 = '=' then r else c2 :: r) else c1 :: c2 :: r

/-- Removal of up to two trailing pad characters. -/
def dropPad (l : List Char) : List Char := (dropPadRev l.reverse).reverse

/-- Sextet values of a character list, `none` on any character outside the
alphabet. -/
def mapSextets : List Char → Option (List Nat)
  | [] => some []
  | c :: rest =>
    match b64Index c, mapSextets rest with
    | some n, some ns => some (n :: ns)
    | _, _ => none

/-- Byte list reassembled from sextets; a final group of two or three
sextets yields one or two bytes, a lone trailing sextet is invalid. -/
def sextetsToBytes : List Nat → Option (List Nat)
  | [] => some []
  | [_] => none
  | [s1, s2] => some [s1 * 4 + s2 / 16]
  | [s1, s2, s3] => some [s1 * 4 + s2 / 16, s2 % 16 * 16 + s3 / 4]
  | s1 :: s2 :: s3 :: s4 :: rest =>
    match sextetsToBytes rest with
    | some bs => some ((s1 * 4 + s2 / 16) :: (s2 % 16 * 16 + s3 / 4) :: (s3 % 4 * 64 + s4) :: bs)
    | none => none

/-- Forgiving base64 decoding of a character list to bytes. -/
def atobChars (l0 : List Char) : Option (List Nat) :=
  let l1 := l0.filter (fun c => !isB64Space c)
  let l2 := if l1.length % 4 == 0 then dropPad l1 else l1
  if l2.length % 4 == 1 then none
  else
    match mapSextets l2 with
    | none => none
    | some ss => sextetsToBytes ss

/-- Embedding of `atob`: the decoded bytes reinterpreted as a Latin-1
string, `none` modelling the thrown `InvalidCharacterError`. -/
def atobStr (s : String) : Option String :=
  match atobChars s.data with
  | none => none
  | some bs => some (String.mk (bs.map Char.ofNat))

/-! ## JSON (`JSON.stringify` / `JSON.parse`), the storage obfuscation payload

The values this program serializes are license-identity objects: objects
whose members are strings (plus the booleans and nulls of settings
import/export).  The host's JSON is modelled over that fragment: numeric
literals are left out of the data type because the host's numbers are
floating point.  `JSON.parse` is a recursive-descent reader with a fuel
argument bounding nesting; the fuel chosen in `jsonParse` is generous
enough for any value whose text fits in the input. -/

/-- JSON values of the fragment this program stores. -/
inductive Json where
  | null : Json
  | bool (b : Bool) : Json
  | str (s : String) : Json
  | arr (elems : List Json) : Json
  | obj (fields : List (String × Json)) : Json

/-- Lower-case hexadecimal digit character. -/
def hexChar (n : Nat) : Char :=
  if n < 10 then Char.ofNat (48 + n)
  else if n < 16 then Char.ofNat (87 + n)
  else '0'

/-- Escaping of one character inside a JSON string literal, as
`JSON.stringify` performs it. -/
def escapeChar (c : Char) : List Char :=
  if c = '"' then '\\' :: ['"']
  else if c = '\\' then '\\' :: ['\\']
  else if c = '\x08' then '\\' :: ['b']
  else if c = '\x09' then '\\' :: ['t']
  else if c = '\x0a' then '\\' :: ['n']
  else if c = '\x0c' then '\\' :: ['f']
  else if c = '\x0d' then '\\' :: ['r']
  else if c.toNat < 32 then
    '\\' :: 'u' :: '0' :: '0' :: hexChar (c.toNat / 16) :: [hexChar (c.toNat % 16)]
  else [c]

/-- Escaping of a character list. -/
def escapeList : List Char → List Char
  | [] => []
  | c :: rest => escapeChar c ++ escapeList rest

/-- A JSON string literal: quote, escaped content, quote. -/
def quoteChars (s : String) : List Char := '"' :: (escapeList s.data ++ ['"'])

mutual

/-- Serialization of a value, as compact `JSON.stringify` output. -/
def stringifyVal : Json → List Char
  | .null => ("null" : String).data
  | .bool true => ("true" : String).data
  | .bool false => ("false" : String).data
  | .str s => quoteChars s
  | .arr l => '[' :: (stringifyElems l ++ [']'])
  | .obj l => '\x7b' :: (stringifyFields l ++ ['\x7d'])

/-- Serialization of array elements, comma separated. -/
def stringifyElems : List Json → List Char
  | [] => []
  | [v] => stringifyVal v
  | v :: rest => stringifyVal v ++ ',' :: stringifyElems rest

/-- Serialization of object members, comma separated. -/
def stringifyFields : List (String × Json) → List Char
  | [] => []
  | [(k, v)] => quoteChars k ++ ':' :: stringifyVal v
  | (k, v) :: rest => quoteChars k ++ ':' :: stringifyVal v ++ ',' :: stringifyFields rest

end

/-- Embedding of `JSON.stringify` on the modelled fragment. -/
def stringifyJson (v : Json) : String := String.mk (stringifyVal v)

/-- Value of a hexadecimal digit character. -/
def hexVal (c : Char) : Option Nat :=
  let n := c.toNat
  if 48 ≤ n ∧ n ≤ 57 then some (n - 48)
  else if 97 ≤ n ∧ n ≤ 102 then some (n - 87)
  else if 65 ≤ n ∧ n ≤ 70 then some (n - 55)
  else none

/-- Reader of the body of a JSON string literal, after the opening quote:
yields the decoded characters and the input following the closing quote.
Raw control characters are rejected, as `JSON.parse` rejects them. -/
def parseStrBody : List Char → Option (List Char × List Char)
  | [] => none
  | c :: rest =>
    if c = '"' then some ([], rest)
    else if c = '\\' then
      match rest with
      | [] => none
      | e :: rest2 =>
        if e = '"' then (parseStrBody rest2).map (fun p => ('"' :: p.1, p.2))
        else if e = '\\' then (parseStrBody rest2).map (fun p => ('\\' :: p.1, p.2))
        else if e = '/' then (parseStrBody rest2).map (fun p => ('/' :: p.1, p.2))
        else if e = 'b' then (parseStrBody rest2).map (fun p => ('\x08' :: p.1, p.2))
        else if e = 'f' then (parseStrBody rest2).map (fun p => ('\x0c' :: p.1, p.2))
        else if e = 'n' then (parseStrBody rest2).map (fun p => ('\x0a' :: p.1, p.2))
        else if e = 'r' then (parseStrBody rest2).map (fun p => ('\x0d' :: p.1, p.2))
        else if e = 't' then (parseStrBody rest2).map (fun p => ('\x09' :: p.1, p.2))
        else if e = 'u' then
          match rest2 with
          | h1 :: h2 :: h3 :: h4 :: rest3 =>
            match hexVal h1, hexVal h2, hexVal h3, hexVal h4 with
            | some a, some b, some c', some d =>
              (parseStrBody rest3).map
                (fun p => (Char.ofNat (a * 4096 + b * 256 + c' * 16 + d) :: p.1, p.2))
            | _, _, _, _ => none
          | _ => none
        else none
    else if c.toNat < 32 then none
    else (parseStrBody rest).map (fun p => (c :: p.1, p.2))

/-- Completion of the `null` keyword after its first character. -/
def parseNull (rest : List Char) : Option (Json × List Char) :=
  match rest with
  | 'u' :: 'l' :: 'l' :: r => some (.null, r)
  | _ => none

/-- Completion of the `true` keyword after its first character. -/
def parseTrue (rest : List Char) : Option (Json × List Char) :=
  match rest with
  | 'r' :: 'u' :: 'e' :: r => some (.bool true, r)
  | _ => none

/-- Completion of the `false` keyword after its first character. -/
def parseFalse (rest : List Char) : Option (Json × List Char) :=
  match rest with
  | 'a' :: 'l' :: 's' :: 'e' :: r => some (.bool false, r)
  | _ => none

/-- Whether a character list starts with the given character. -/
def headCharIs (l : List Char) (c : Char) : Bool :=
  match l with
  | x :: _ => x = c
  | [] => false

/-- Wrapping of a read element list into an array value, expecting the
closing bracket. -/
def finishArr (res : Option (List Json × List Char)) : Option (Json × List Char) :=
  match res with
  | some (l, ']' :: r3) => some (.arr l, r3)
  | _ => none

/-- Wrapping of a read member list into an object value, expecting the
closing brace. -/
def finishObj (res : Option (List (String × Json) × List Char)) : Option (Json × List Char) :=
  match res with
  | some (l, '\x7d' :: r3) => some (.obj l, r3)
  | _ => none

/-- Prepending of a read element to the remaining elements. -/
def consElems (v : Json) (res : Option (List Json × List Char)) :
    Option (List Json × List Char) :=
  match res with
  | some (l, r3) => some (v :: l, r3)
  | none => none

/-- Prepending of a read member to the remaining members. -/
def consMembers (k : String) (v : Json) (res : Option (List (String × Json) × List Char)) :
    Option (List (String × Json) × List Char) :=
  match res with
  | some (l, r6) => some ((k, v) :: l, r6)
  | none => none

mutual

/-- Reader of one JSON value; the fuel bounds nesting and element count. -/
def parseValue : Nat → List Char → Option (Json × List Char)
  | 0, _ => none
  | fuel + 1, cs =>
    match cs with
    | [] => none
    | c :: rest =>
      if c = 'n' then parseNull rest
      else if c = 't' then parseTrue rest
      else if c = 'f' then parseFalse rest
      else if c = '"' then (parseStrBody rest).map (fun p => (.str (String.mk p.1), p.2))
      else if c = '[' then
        if headCharIs rest ']' then some (.arr [], rest.tail)
        else finishArr (parseElems fuel rest)
      else if c = '\x7b' then
        if headCharIs rest '\x7d' then some (.obj [], rest.tail)
        else finishObj (parseMembers fuel rest)
      else none

/-- Reader of a non-empty comma-separated element list. -/
def parseElems : Nat → List Char → Option (List Json × List Char)
  | 0, _ => none
  | fuel + 1, cs =>
    match parseValue fuel cs with
    | none => none
    | some (v, rest) =>
      if headCharIs rest ',' then consElems v (parseElems fuel rest.tail)
      else some ([v], rest)

/-- Reader of a non-empty comma-separated member list. -/
def parseMembers : Nat → List Char → Option (List (String × Json) × List Char)
  | 0, _ => none
  | fuel + 1, cs =>
    if headCharIs cs '"' then
      match parseStrBody cs.tail with
      | none => none
      | some (kcs, rest2) =>
        if headCharIs rest2 ':' then
          match parseValue fuel rest2.tail with
          | none => none
          | some (v, rest4) =>
            if headCharIs rest4 ',' then
              consMembers (String.mk kcs) v (parseMembers fuel rest4.tail)
            else some ([(String.mk kcs, v)], rest4)
        else none
    else none
end

/-- Embedding of `JSON.parse` on the modelled fragment: the whole input must
be one value.  The fuel `2 * length + 2` exceeds what any value whose text
fits in the input can consume. -/
def jsonParse (s : String) : Option Json :=
  match parseValue (2 * s.length + 2) s.data with
  | some (v, []) => some v
  | _ => none

/-! ## `LicenseInfoEncryption` (src/shared/encryption.js, lines 12-37) -/

/-- Embedding of `LicenseInfoEncryption.encrypt`: `btoa(JSON.stringify(data))`,
`none` on a thrown error. -/
def encrypt (data : Json) : Option String := btoaStr (stringifyJson data)

/-- Embedding of `LicenseInfoEncryption.decrypt`: `JSON.parse(atob(encryptedData))`,
`none` on a thrown error. -/
def decrypt (encryptedData : String) : Option Json :=
  match atobStr encryptedData with
  | none => none
  | some decoded => jsonParse decoded

/-! ## `PopupManager.processSamplesBatch` (src/popup/popup.js, lines 456-574)

The popup's two message calls (`searchSamples`, `generateLicense`) and its
storage read are the environment; the second component of `processOne`
counts how many `generateLicense` messages the iteration sent, the
instrumentation behind the at-most-one-issuance claims. -/

/-- Response of the `searchSamples` message (progress-display fields of the
JavaScript record are omitted). -/
structure SearchResponse where
  success : Bool
  results : List Candidate
  error : Option String
deriving DecidableEq

/-- Response of the `generateLicense` message. -/
structure GenerateResponse where
  success : Bool
  downloadUrl : Option String
  error : Option String
deriving DecidableEq

/-- The popup's external world for one batch: search and issuance message
outcomes plus the stored (encrypted) license information; `Except.error`
carries a thrown error's message, caught by the loop's `catch`. -/
structure PopupEnv where
  search : String → Except String SearchResponse
  licenseInfo : Option String
  generate : String → Json → String → Except String GenerateResponse

/-- Fixed per-name failure message: resolver returned nothing. -/
def msgNotFound : String :=
  "Sample not found on Splice. Please verify the sample name is correct."

/-- Fixed per-name failure message: selector returned nothing. -/
def msgNoMatch : String := "No suitable match found"

/-- Fixed per-name failure message: candidate not in the library. -/
def msgNotInLibrary : String :=
  "Sample not in your library. Please add this sample to your Splice library before generating a license."

/-- Fixed per-name failure message: no license identity configured. -/
def msgNoLicenseInfo : String :=
  "License information not configured. Please set up your license details in the extension options."

/-- Fixed per-name failure message: stored license information unreadable. -/
def msgDecodeFailed : String := "Failed to decode license information"

/-- Fixed per-name failure message: issuance rejected without a message. -/
def msgGenerateFailed : String := "Failed to generate license"

/-- Per-name result record of the batch (the JavaScript `sampleInfo` and
`message` display fields are omitted). -/
structure SampleResult where
  sample : String
  success : Bool
  error : Option String := none
  sampleId : Option String := none
  downloadUrl : Option String := none
deriving DecidableEq

/-- Decoding of the stored license information,
`JSON.parse(atob(licenseInfo))`; `none` is the caught decode error. -/
def decodeLicenseInfo (s : String) : Option Json :=
  match atobStr s with
  | none => none
  | some decoded => jsonParse decoded

/-- One iteration of the `processSamplesBatch` loop: the per-name result and
the number of `generateLicense` messages sent while producing it. -/
def processOne (env : PopupEnv) (sample : String) : SampleResult × Nat :=
  match env.search sample with
  | .error e => ({ sample := sample, success := false, error := some e }, 0)
  | .ok searchResult =>
    if !searchResult.success || searchResult.results.isEmpty then
      ({ sample := sample, success := false
         error := some (orDefaultStr searchResult.error msgNotFound) }, 0)
    else
      match findBestMatch sample searchResult.results with
      | none => ({ sample := sample, success := false, error := some msgNoMatch }, 0)
      | some bestMatch =>
        if bestMatch.inLibrary = false then
          ({ sample := sample, success := false, error := some msgNotInLibrary }, 0)
        else
          match env.licenseInfo with
          | none => ({ sample := sample, success := false, error := some msgNoLicenseInfo }, 0)
          | some licenseInfo =>
            if licenseInfo == "" then
              ({ sample := sample, success := false, error := some msgNoLicenseInfo }, 0)
            else
              match decodeLicenseInfo licenseInfo with
              | none => ({ sample := sample, success := false, error := some msgDecodeFailed }, 0)
              | some decodedLicenseInfo =>
                match env.generate bestMatch.id decodedLicenseInfo sample with
                | .error e => ({ sample := sample, success := false, error := some e }, 1)
                | .ok licenseResult =>
                  if !licenseResult.success then
                    ({ sample := sample, success := false
                       error := some (orDefaultStr licenseResult.error msgGenerateFailed) }, 1)
                  else
                    ({ sample := sample, success := true
                       sampleId := some bestMatch.id
                       downloadUrl := licenseResult.downloadUrl }, 1)

/-- Embedding of `PopupManager.processSamplesBatch`: the loop pushes exactly
one result per requested name, in order (progress display and the one
second inter-name pause have no bearing on the results). -/
def processSamplesBatch (env : PopupEnv) (samples : List String) : List SampleResult :=
  samples.map (fun sample => (processOne env sample).1)

/-- Number of `generateLicense` messages sent while processing one name. -/
def issuanceCalls (env : PopupEnv) (sample : String) : Nat := (processOne env sample).2

/-! ## `SpliceAPIManager.searchSamples` (src/unnamed/part_000, lines 1074-1155) -/

/-- GraphQL sample record returned by the content script. -/
structure SampleRef where
  assetUuid : String
  licensed : Bool
deriving DecidableEq

/-- Response of the `searchSampleViaGraphQL` message; `none` at the outer
level models `sendMessage` resolving with no response. -/
structure GqlSearchResp where
  success : Bool
  sample : Option SampleRef
  error : Option String
deriving DecidableEq

/-- The service worker's external world for one search: the tab query, tab
creation when no platform tab exists, and the content-script message. -/
structure SearchEnv where
  tabs : Except String (List Nat)
  created : Except String Nat
  send : Nat → Except String (Option GqlSearchResp)

/-- Tab selection at the top of `SpliceAPIManager.searchSamples`: an open
platform tab if any, otherwise the freshly created background tab. -/
def targetTabOf (env : SearchEnv) : Except String Nat :=
  match env.tabs with
  | .error e => .error e
  | .ok [] => env.created
  | .ok (t :: _) => .ok t

/-- Embedding of `SpliceAPIManager.searchSamples` (the GraphQL variant the
deployed service worker uses): every failure is caught and converted to a
`success := false` response with empty results and a reason string. -/
def searchSamplesSW (env : SearchEnv) (query : String) : SearchResponse :=
  match targetTabOf env with
  | .error e =>
    { success := false, results := []
      error := some (orDefaultStr (some e) "Search failed. Please try again.") }
  | .ok tid =>
    match env.send tid with
    | .error e =>
      if strIncludes e "Receiving end does not exist" then
        { success := false, results := []
          error := some "Please refresh the Splice.com page and try again." }
      else
        { success := false, results := []
          error := some (orDefaultStr (some e) "Search failed") }
    | .ok response =>
      match response with
      | some r =>
        if r.success then
          match r.sample with
          | some smp =>
            { success := true
              results := [{ id := smp.assetUuid, name := some query, inLibrary := smp.licensed }]
              error := none }
          | none => { success := true, results := [], error := none }
        else
          { success := false, results := []
            error := some (orDefaultStr r.error "Sample not found") }
      | none =>
        { success := false, results := [], error := some "Sample not found" }

/-! ## `SpliceContentScript.executeInPageContext` (src/popup/popup.js, lines 2096-2157) -/

/-- Parsed body of the GraphQL issuance response: the error message list and
the `data.proofOfLicense.downloadUrl` payload when present. -/
structure GqlBody where
  errors : List String
  proofOfLicense : Option String
deriving DecidableEq

/-- The fetch outcome: HTTP status flag, status text, and the JSON body
(`Except.error` models `response.json()` throwing). -/
structure FetchResponse where
  ok : Bool
  statusText : String
  body : Except String GqlBody

/-- The issuance call's external world: the page-context auth token
(`none` models the five-second timeout) and the fetch outcome. -/
structure GqlEnv where
  authToken : Option String
  fetchResult : Except String FetchResponse

/-- Successful issuance payload. -/
structure PageResult where
  downloadUrl : String
deriving DecidableEq

/-- Fixed issuance failure message for the missing auth token. -/
def msgNoAuthToken : String :=
  "Unable to retrieve authentication token. Please make sure you are logged in to Splice.com"

/-- Fixed issuance failure message for an authorization-denied response. -/
def msgIssuanceNotOwned : String :=
  "Sample not in your library. Add this sample to your library before generating a license."

/-- Fixed issuance failure message for an authentication-expired response. -/
def msgIssuanceAuthExpired : String :=
  "Authentication expired. Please refresh the Splice.com page and try again."

/-- Fixed issuance failure message for a not-found response. -/
def msgIssuanceNotFound : String :=
  "Sample not found on Splice. Please check the sample name."

/-- Fixed issuance failure message for a malformed success response. -/
def msgIssuanceInvalid : String := "Invalid response from Splice. Please try again."

/-- Embedding of `SpliceContentScript.executeInPageContext`: the GraphQL
error-message classification chain. -/
def executeInPageContext (env : GqlEnv) : Except String PageResult :=
  match env.authToken with
  | none => .error msgNoAuthToken
  | some _ =>
    match env.fetchResult with
    | .error e => .error e
    | .ok response =>
      if !response.ok then .error ("Request failed: " ++ response.statusText)
      else
        match response.body with
        | .error e => .error e
        | .ok result =>
          if !result.errors.isEmpty then
            let errorMessages := String.intercalate ", " result.errors
            if strIncludes errorMessages "403" || strIncludes errorMessages "Forbidden" then
              .error msgIssuanceNotOwned
            else if strIncludes errorMessages "401" || strIncludes errorMessages "Unauthorized" then
              .error msgIssuanceAuthExpired
            else if strIncludes errorMessages "404" || strIncludes errorMessages "Not Found" then
              .error msgIssuanceNotFound
            else
              .error ("Failed to generate license: " ++ errorMessages)
          else
            match result.proofOfLicense with
            | some downloadUrl => .ok { downloadUrl := downloadUrl }
            | none => .error msgIssuanceInvalid

/-! ## `SpliceSessionManager.checkAuthViaCookies` (src/unnamed/part_000, lines 640-724) -/

/-- A browser cookie as the extension reads it: `expirationDate` is seconds
since the epoch, absent on session cookies.  Times are integers here; the
fractional part of `Date.now()/1000` has no bearing on the comparisons. -/
structure Cookie where
  name : String
  domain : String
  expirationDate : Option Int
deriving DecidableEq

/-- The cookie check's external world: the three `chrome.cookies.getAll`
results, the current time in seconds, and whether the cookie API threw. -/
structure CookieEnv where
  cookies : List Cookie
  domainCookies : List Cookie
  authCookies : List Cookie
  now : Int
  getAllFails : Bool

/-- Keys in first-occurrence order, the iteration order of a JavaScript
`Map` built by repeated insertion. -/
def dedupKeysAux (seen : List String) : List String → List String
  | [] => []
  | k :: rest =>
    if seen.contains k then dedupKeysAux seen rest
    else k :: dedupKeysAux (k :: seen) rest

/-- Last cookie carrying a given `name + domain` key, the value a JavaScript
`Map` retains after repeated insertion. -/
def lastWithKey (l : List Cookie) (k : String) : Option Cookie :=
  (l.filter (fun c => c.name ++ c.domain == k)).getLast?

/-- Embedding of
`Array.from(new Map(allCookies.map(c => [c.name + c.domain, c])).values())`. -/
def uniqueCookies (l : List Cookie) : List Cookie :=
  (dedupKeysAux [] (l.map (fun c => c.name ++ c.domain))).filterMap (lastWithKey l)

/-- Outcome record of the cookie check. -/
structure CookieAuth where
  loggedIn : Bool
  reason : Option String
deriving DecidableEq

/-- The combined cookie list of the three queries. -/
def allCookiesOf (env : CookieEnv) : List Cookie :=
  env.cookies ++ env.domainCookies ++ env.authCookies

/-- The deduplicated cookie list the check inspects. -/
def uniqueCookiesOf (env : CookieEnv) : List Cookie := uniqueCookies (allCookiesOf env)

/-- The auth0 expiry test `expiry && expiry < now`: a zero expiry is falsy
in JavaScript, so it never counts as expired. -/
def auth0ExpiredOf (env : CookieEnv) : Bool :=
  match (uniqueCookiesOf env).find? (fun c => c.name == "auth0") with
  | none => false
  | some c =>
    match c.expirationDate with
    | none => false
    | some e => (e != 0) && decide (e < env.now)

/-- Embedding of `SpliceSessionManager.checkAuthViaCookies`; `none` is the
inconclusive `null` (no specific auth cookie, or a thrown cookie-API
error). -/
def checkAuthViaCookies (env : CookieEnv) : Option CookieAuth :=
  if env.getAllFails then none
  else
    let unique := uniqueCookiesOf env
    if unique.isEmpty then some { loggedIn := false, reason := some "no_cookies" }
    else
      let auth0Cookie := unique.find? (fun c => c.name == "auth0")
      let spliceTokenCookie := unique.find? (fun c => c.name == "_splice_token_prod")
      if auth0ExpiredOf env then some { loggedIn := false, reason := some "auth0_expired" }
      else if spliceTokenCookie.isSome then some { loggedIn := true, reason := none }
      else if auth0Cookie.isSome then some { loggedIn := false, reason := some "no_splice_token" }
      else none

/-! ## `SpliceSessionManager.checkUserLoggedIn` (src/unnamed/part_000, lines 730-942) -/

/-- Response of the `getSessionData` content-script message. -/
structure SessionResponse where
  loggedIn : Bool
  user : Option String
deriving DecidableEq

/-- Result record of the session check (timestamps omitted). -/
structure AuthStatus where
  loggedIn : Bool
  user : Option String := none
  method : Option String := none
  error : Option String := none
deriving DecidableEq

/-- The session check's external world: the cached status, the cookie
environment, the active tab's URL, the open platform tabs, and the
outcomes of the first `getSessionData` message, the script re-injection,
and the retried message. -/
structure SessionEnv where
  cache : Option AuthStatus
  cacheValid : Bool
  cookieEnv : CookieEnv
  activeTabUrl : Option String
  spliceTabs : List Nat
  send1 : Except String (Option SessionResponse)
  inject : Except String Unit
  send2 : Except String (Option SessionResponse)

/-- Fixed failure status when the content script cannot be reached. -/
def cannotCommunicate : AuthStatus :=
  { loggedIn := false, error := some "Cannot communicate with Splice.com" }

/-- The shared message-and-corroborate block of `checkUserLoggedIn`:
first `getSessionData` attempt, the cookies-override on a negative
response, and the re-injection retry on the listed channel errors
(`alsoContextInvalidated` distinguishes the off-platform branch, which
additionally retries on `Extension context invalidated`). -/
def domSessionStep (cookieAuth : Option CookieAuth) (send1 : Except String (Option SessionResponse))
    (inject : Except String Unit) (send2 : Except String (Option SessionResponse))
    (alsoContextInvalidated : Bool) : AuthStatus :=
  let cookieSaysLoggedIn :=
    match cookieAuth with
    | some ca => ca.loggedIn
    | none => false
  let negative : AuthStatus :=
    if cookieSaysLoggedIn then
      { loggedIn := true, user := none, method := some "cookies_override" }
    else
      { loggedIn := false, error := some "Not logged in to Splice" }
  match send1 with
  | .ok (some r) =>
    if r.loggedIn then { loggedIn := true, user := some (r.user.getD "Unknown") }
    else negative
  | .ok none => negative
  | .error e =>
    if strIncludes e "Receiving end does not exist" ||
       (alsoContextInvalidated && strIncludes e "Extension context invalidated") then
      match inject with
      | .error _ => cannotCommunicate
      | .ok _ =>
        match send2 with
        | .ok (some r) =>
          if r.loggedIn then { loggedIn := true, user := some (r.user.getD "Unknown") }
          else cannotCommunicate
        | _ => cannotCommunicate
    else cannotCommunicate

/-- The test `tab && tab.url.includes('splice.com')` on the active tab. -/
def onSpliceTab (env : SessionEnv) : Bool :=
  match env.activeTabUrl with
  | some url => strIncludes url "splice.com"
  | none => false

/-- Whether some platform page is reachable for the DOM corroboration step:
either the active tab is on the platform or some platform tab is open. -/
def tabReachable (env : SessionEnv) : Bool :=
  onSpliceTab env || !env.spliceTabs.isEmpty

/-- Whether a first-message failure with message `e` triggers the
re-injection retry; off the platform tab the branch additionally retries on
`Extension context invalidated`. -/
def retryEligible (env : SessionEnv) (e : String) : Bool :=
  strIncludes e "Receiving end does not exist" ||
  (!onSpliceTab env && strIncludes e "Extension context invalidated")

/-- Whether the re-injection retry ends in a positive session response. -/
def retrySucceeds (env : SessionEnv) : Bool :=
  match env.inject, env.send2 with
  | .ok _, .ok (some r) => r.loggedIn
  | _, _ => false

/-- Embedding of `SpliceSessionManager.checkUserLoggedIn` (cache writes,
which do not change the returned status, are not tracked). -/
def checkUserLoggedIn (env : SessionEnv) : AuthStatus :=
  match env.cache, env.cacheValid with
  | some st, true => st
  | _, _ =>
    let cookieAuth := checkAuthViaCookies env.cookieEnv
    let cookieSaysNo :=
      match cookieAuth with
      | some ca => ca.loggedIn == false
      | none => false
    if cookieSaysNo then { loggedIn := false, method := some "cookies" }
    else
      if !onSpliceTab env then
        if env.spliceTabs.isEmpty then
          { loggedIn := false, error := some "Not on Splice.com" }
        else
          domSessionStep cookieAuth env.send1 env.inject env.send2 true
      else
        domSessionStep cookieAuth env.send1 env.inject env.send2 false

/-! ## Concrete environments used to evaluate the theorems below -/

/-- A candidate that sits in the library. -/
def candOwned : Candidate := { id := "uuid-1", name := some "FOO", inLibrary := true }

/-- A candidate that is not in the library. -/
def candNotOwned : Candidate := { id := "uuid-2", name := some "bar", inLibrary := false }

/-- A popup environment whose search finds nothing. -/
def envEmptySearch : PopupEnv :=
  { search := fun _ => .ok { success := true, results := [], error := none }
    licenseInfo := some "e30="
    generate := fun _ _ _ => .ok { success := true, downloadUrl := some "u", error := none } }

/-- A popup environment whose search finds only an unowned candidate. -/
def envNotOwnedSearch : PopupEnv :=
  { search := fun _ => .ok { success := true, results := [candNotOwned], error := none }
    licenseInfo := some "e30="
    generate := fun _ _ _ => .ok { success := true, downloadUrl := some "u", error := none } }

/-- A popup environment with no stored license information. -/
def envNoLicense : PopupEnv :=
  { search := fun _ => .ok { success := true, results := [candOwned], error := none }
    licenseInfo := none
    generate := fun _ _ _ => .ok { success := true, downloadUrl := some "u", error := none } }

/-- A search environment whose content-script channel is torn down. -/
def envSearchTorn : SearchEnv :=
  { tabs := .ok [7]
    created := .error "no tab"
    send := fun _ => .error "Could not establish connection. Receiving end does not exist." }

/-- An issuance environment answering with a 403 GraphQL error. -/
def envGql403 : GqlEnv :=
  { authToken := some "tok"
    fetchResult := .ok { ok := true, statusText := "OK"
                         body := .ok { errors := ["Request failed with status code 403"]
                                       proofOfLicense := none } } }

/-- An unexpired platform session token. -/
def ckSpliceToken : Cookie :=
  { name := "_splice_token_prod", domain := "splice.com", expirationDate := some 99999 }

/-- An expired long-lived identity token. -/
def ckAuth0Expired : Cookie :=
  { name := "auth0", domain := "auth.splice.com", expirationDate := some 5 }

/-- Cookie environment carrying only the expired identity token. -/
def cenvOnlyExpiredAuth0 : CookieEnv :=
  { cookies := [], domainCookies := [], authCookies := [ckAuth0Expired]
    now := 1000, getAllFails := false }

/-- Cookie environment carrying an unexpired session token and an expired
identity token: the input on which the second half of the session-gate
cookie claim fails. -/
def cenvTokenAndExpiredAuth0 : CookieEnv :=
  { cookies := [ckSpliceToken], domainCookies := [], authCookies := [ckAuth0Expired]
    now := 1000, getAllFails := false }

/-- Cookie environment carrying only the unexpired session token. -/
def cenvTokenOnly : CookieEnv :=
  { cookies := [ckSpliceToken], domainCookies := [], authCookies := []
    now := 1000, getAllFails := false }

/-- Session environment with a tentative cookie `Authenticated` verdict and
no reachable platform tab: the input on which the DOM-failure claim fails. -/
def senvNoTab : SessionEnv :=
  { cache := none, cacheValid := false, cookieEnv := cenvTokenOnly
    activeTabUrl := none, spliceTabs := []
    send1 := .error "Receiving end does not exist"
    inject := .error "fail", send2 := .error "fail" }

/-- Session environment with a tentative cookie `Authenticated` verdict
whose content script answers that the user is not logged in. -/
def senvDomSaysNo : SessionEnv :=
  { cache := none, cacheValid := false, cookieEnv := cenvTokenOnly
    activeTabUrl := some "https://splice.com/sounds", spliceTabs := [3]
    send1 := .ok (some { loggedIn := false, user := none })
    inject := .error "fail", send2 := .error "fail" }

/-- Session environment with a tentative cookie `Authenticated` verdict
whose content-script channel stays torn down through the retry. -/
def senvCommFails : SessionEnv :=
  { cache := none, cacheValid := false, cookieEnv := cenvTokenOnly
    activeTabUrl := some "https://splice.com/sounds", spliceTabs := [3]
    send1 := .error "Could not establish connection. Receiving end does not exist."
    inject := .ok (), send2 := .error "Receiving end does not exist" }

/-- A license-identity value of the shape this extension stores. -/
def identSample : Json :=
  .obj [("legalName", .str "Jane Doe"), ("artistName", .str "JD"), ("companyName", .str "")]

/-- Unpadded base64 encoding, the shape `atob` sees after pad stripping;
used only to state the round-trip argument. -/
def encodeSext : List Nat → List Char
  | [] => []
  | [a] => [sextetChar (a / 4), sextetChar (a % 4 * 16)]
  | [a, b] => [sextetChar (a / 4), sextetChar (a % 4 * 16 + b / 16), sextetChar (b % 16 * 4)]
  | a :: b :: c :: rest =>
    sextetChar (a / 4) :: sextetChar (a % 4 * 16 + b / 16) ::
    sextetChar (b % 16 * 4 + c / 64) :: sextetChar (c % 64) :: encodeSext rest

/-- Sextet values of a byte list, the numeric counterpart of `encodeSext`;
used only to state the round-trip argument. -/
def toSextets : List Nat → List Nat
  | [] => []
  | [a] => [a / 4, a % 4 * 16]
  | [a, b] => [a / 4, a % 4 * 16 + b / 16, b % 16 * 4]
  | a :: b :: c :: rest =>
    a / 4 :: (a % 4 * 16 + b / 16) :: (b % 16 * 4 + c / 64) :: c % 64 :: toSextets rest

/-! ## Theorems -/

/-- Every branch of the loop body records the requested name unchanged. -/
theorem processOne_sample (env : PopupEnv) (s : String) :
    ((processOne env s).1).sample = s := by
  unfold processOne
  repeat' split
  all_goals rfl

/-- The loop body sends at most one `generateLicense` message. -/
theorem processOne_calls_le_one (env : PopupEnv) (s : String) :
    (processOne env s).2 ≤ 1 := by
  unfold processOne
  repeat' split
  all_goals simp

/-- C1: for every input batch, `processSamplesBatch` returns exactly one
result per requested name, in input order: the output has the input's
length and the i-th result's `sample` field is the i-th input name,
whatever each name's outcome. -/
theorem batch_one_result_per_name_in_order (env : PopupEnv) (samples : List String) :
    (processSamplesBatch env samples).length = samples.length ∧
    (processSamplesBatch env samples).map (fun r => r.sample) = samples := by
  constructor
  · simp [processSamplesBatch]
  · unfold processSamplesBatch
    induction samples with
    | nil => rfl
    | cons s rest ih => simp [processOne_sample, ih]

/-- C2: per requested name, the `generateLicense` message is sent at most
once; it is never sent when the resolver returned no candidates, nor when
the selected candidate's `inLibrary` flag is `false`. -/
theorem issuance_at_most_once (env : PopupEnv) (sample : String) :
    issuanceCalls env sample ≤ 1 ∧
    (∀ sr, env.search sample = .ok sr → sr.results = [] →
      issuanceCalls env sample = 0) ∧
    (∀ sr best, env.search sample = .ok sr →
      findBestMatch sample sr.results = some best → best.inLibrary = false →
      issuanceCalls env sample = 0) := by
  refine ⟨processOne_calls_le_one env sample, ?_, ?_⟩
  · intro sr hs he
    simp [issuanceCalls, processOne, hs, he]
  · intro sr best hs hb hlib
    by_cases hcond : (!sr.success || sr.results.isEmpty) = true
    · simp [issuanceCalls, processOne, hs, hcond]
    · simp [issuanceCalls, processOne, hs, hcond, hb, hlib]

/-- C2 witness: a concrete environment in which the resolver finds nothing,
and one in which the single candidate is not in the library. -/
theorem issuance_at_most_once_witness :
    issuanceCalls envEmptySearch "x" = 0 ∧ issuanceCalls envNotOwnedSearch "x" = 0 :=
  ⟨(issuance_at_most_once envEmptySearch "x").2.1
      { success := true, results := [], error := none } rfl rfl,
   (issuance_at_most_once envNotOwnedSearch "x").2.2
      { success := true, results := [candNotOwned], error := none } candNotOwned
      rfl (by decide) rfl⟩

/-- C6: with no stored license identity the batch still yields one result
per name without throwing, no name ever triggers a `generateLicense`
message, and every name that resolves to an owned candidate fails with the
missing-identity message. -/
theorem missing_identity_short_circuit (env : PopupEnv) (h : env.licenseInfo = none) :
    (∀ samples : List String,
      (processSamplesBatch env samples).length = samples.length) ∧
    (∀ s, issuanceCalls env s = 0) ∧
    (∀ s sr best, env.search s = .ok sr →
      (!sr.success || sr.results.isEmpty) = false →
      findBestMatch s sr.results = some best → best.inLibrary = true →
      (processOne env s).1.success = false ∧
      (processOne env s).1.error = some msgNoLicenseInfo) := by
  refine ⟨?_, ?_, ?_⟩
  · intro samples; simp [processSamplesBatch]
  · intro s
    unfold issuanceCalls processOne
    rw [h]
    repeat' split
    all_goals simp_all
  · intro s sr best hs hcond hb hlib
    simp [processOne, hs, hcond, hb, hlib, h]

/-- C6 witness: the concrete no-identity environment, with a name that
resolves to an owned candidate. -/
theorem missing_identity_short_circuit_witness :
    (processSamplesBatch envNoLicense ["a", "b"]).length = 2 ∧
    issuanceCalls envNoLicense "a" = 0 ∧
    (processOne envNoLicense "a").1.success = false ∧
    (processOne envNoLicense "a").1.error = some msgNoLicenseInfo := by
  have h := missing_identity_short_circuit envNoLicense rfl
  have h3 := h.2.2 "a" { success := true, results := [candOwned], error := none } candOwned
    rfl (by decide) (by decide) rfl
  exact ⟨h.1 ["a", "b"], h.2.1 "a", h3.1, h3.2⟩

/-- With a non-empty default, the JavaScript `||`-default idiom never
yields the empty string. -/
theorem orDefaultStr_ne_empty (o : Option String) (d : String) (hd : d ≠ "") :
    orDefaultStr o d ≠ "" := by
  unfold orDefaultStr
  split
  · exact hd
  · split
    · exact hd
    · simp_all

/-- C8: every failing search result carries an empty candidate list and a
non-empty reason string; a torn-down or failing message channel is such a
failure; and the orchestrator turns an empty candidate list into a
per-name not-found failure (with no issuance attempt) and goes on mapping
the remaining names. -/
theorem resolver_failure_policy (senv : SearchEnv) (q : String) (env : PopupEnv) :
    ((searchSamplesSW senv q).success = false →
      (searchSamplesSW senv q).results = [] ∧
      ∃ e, (searchSamplesSW senv q).error = some e ∧ e ≠ "") ∧
    (∀ tid e, (senv.tabs = .ok [] ∧ senv.created = .ok tid ∨
               ∃ rest, senv.tabs = .ok (tid :: rest)) →
      senv.send tid = .error e → (searchSamplesSW senv q).success = false) ∧
    (∀ s sr, env.search s = .ok sr → sr.results = [] →
      (processOne env s).1.success = false ∧
      (processOne env s).1.error = some (orDefaultStr sr.error msgNotFound) ∧
      issuanceCalls env s = 0) ∧
    (∀ s rest, processSamplesBatch env (s :: rest) =
      (processOne env s).1 :: processSamplesBatch env rest) := by
  refine ⟨?_, ?_, ?_, ?_⟩
  · intro hfail
    revert hfail
    unfold searchSamplesSW
    split
    · exact fun _ => ⟨rfl, orDefaultStr _ _, rfl, orDefaultStr_ne_empty _ _ (by decide)⟩
    · split
      · split
        · exact fun _ => ⟨rfl, _, rfl, by decide⟩
        · exact fun _ => ⟨rfl, orDefaultStr _ _, rfl, orDefaultStr_ne_empty _ _ (by decide)⟩
      · split
        · rename_i r heq
          intro hfail
          by_cases hs : r.success = true
          · rw [if_pos hs] at hfail
            split at hfail
            all_goals simp_all
          · rw [if_neg hs]
            exact ⟨rfl, orDefaultStr _ _, rfl, orDefaultStr_ne_empty _ _ (by decide)⟩
        · exact fun _ => ⟨rfl, _, rfl, by decide⟩
  · intro tid e htab hsend
    have ht : targetTabOf senv = .ok tid := by
      rcases htab with ⟨h1, h2⟩ | ⟨rest, h1⟩
      · simp [targetTabOf, h1, h2]
      · simp [targetTabOf, h1]
    unfold searchSamplesSW
    rw [ht]
    dsimp only
    simp only [hsend]
    split
    all_goals rfl
  · intro s sr hs he
    refine ⟨?_, ?_, ?_⟩
    all_goals simp [processOne, issuanceCalls, hs, he]
  · intro s rest
    simp [processSamplesBatch]

/-- C8 witness: the torn-channel search environment and a batch of two
names under the empty-results environment. -/
theorem resolver_failure_policy_witness :
    ((searchSamplesSW envSearchTorn "q").results = [] ∧
      ∃ e, (searchSamplesSW envSearchTorn "q").error = some e ∧ e ≠ "") ∧
    (searchSamplesSW envSearchTorn "q").success = false ∧
    (processOne envEmptySearch "a").1.error = some msgNotFound ∧
    processSamplesBatch envEmptySearch ["a", "b"] =
      (processOne envEmptySearch "a").1 :: processSamplesBatch envEmptySearch ["b"] := by
  have h := resolver_failure_policy envSearchTorn "q" envEmptySearch
  have hfail := h.2.1 7 "Could not establish connection. Receiving end does not exist."
    (Or.inr ⟨[], rfl⟩) rfl
  have hempty := h.2.2.1 "a" { success := true, results := [], error := none } rfl rfl
  exact ⟨h.1 hfail, hfail, hempty.2.1, h.2.2.2 "a" ["b"]⟩

/-- C9: `validateSampleInput` accepts exactly when the newline-split,
trimmed, empties-dropped name list has between 1 and 20 entries; every
rejection carries an empty sample list and at least one error message. -/
theorem validate_input_iff_bounds (input : String) :
    ((validateSampleInput input).isValid = true ↔
      1 ≤ (cleanSamples input).length ∧ (cleanSamples input).length ≤ 20) ∧
    ((validateSampleInput input).isValid = false →
      (validateSampleInput input).samples = [] ∧
      (validateSampleInput input).errors ≠ []) := by
  by_cases hi : input = ""
  · subst hi
    have hc : cleanSamples "" = [] := by decide
    constructor
    · simp [validateSampleInput, hc]
    · intro _
      simp [validateSampleInput]
  · by_cases h1 : (cleanSamples input).length = 0
    · constructor
      · simp [validateSampleInput, hi, h1]
      · intro _
        simp [validateSampleInput, hi, h1]
    · by_cases h2 : (cleanSamples input).length > 20
      · constructor
        · simp [validateSampleInput, hi, h1, h2]
          try omega
        · intro _
          simp [validateSampleInput, hi, h1, h2]
      · constructor
        · simp [validateSampleInput, hi, h1, h2]
          omega
        · intro hv
          simp [validateSampleInput, hi, h1, h2] at hv

/-- C9 witness: the empty input is rejected with no samples and an error. -/
theorem validate_input_iff_bounds_witness :
    (validateSampleInput "").samples = [] ∧ (validateSampleInput "").errors ≠ [] :=
  (validate_input_iff_bounds "").2 rfl

/-- Lowering never empties a non-empty string. -/
theorem jsToLower_ne_empty (s : String) (h : s ≠ "") : jsToLower s ≠ "" := by
  intro hc
  apply h
  cases s with
  | mk data =>
    have : data.map Char.toLower = [] := congrArg String.data hc
    simp at this
    simp [this]

/-- Pointwise equal predicates find the same first element. -/
theorem find?_congr_pred {α : Type} (f g : α → Bool) (l : List α)
    (h : ∀ a, f a = g a) : l.find? f = l.find? g := by
  induction l with
  | nil => rfl
  | cons a rest ih =>
    by_cases hfa : f a = true
    · rw [List.find?_cons_of_pos _ hfa, List.find?_cons_of_pos _ ((h a) ▸ hfa)]
    · rw [List.find?_cons_of_neg _ hfa, ih,
        List.find?_cons_of_neg _ ((h a) ▸ hfa)]

/-- For a non-empty requested name the code's guarded exact test agrees
with the specification's exact test. -/
theorem nameMatchesExact_eq_spec (name : String) (h : name ≠ "") (c : Candidate) :
    nameMatchesExact name c = selectSpecExact name c := by
  unfold nameMatchesExact selectSpecExact
  cases hc : c.name with
  | none => rfl
  | some n =>
    by_cases hn : n = ""
    · subst hn
      have : jsToLower "" ≠ jsToLower name := by
        intro he
        exact jsToLower_ne_empty name h he.symm
      simp [this]
    · simp [hn]

/-- For a non-empty requested name the code's guarded partial test agrees
with the specification's partial test. -/
theorem nameMatchesPartial_eq_spec (name : String) (h : name ≠ "") (c : Candidate) :
    nameMatchesPartial name c = selectSpecPartial name c := by
  unfold nameMatchesPartial selectSpecPartial
  cases hc : c.name with
  | none => rfl
  | some n =>
    by_cases hn : n = ""
    · subst hn
      have hni : strIncludes (jsToLower "") (jsToLower name) = false := by
        unfold strIncludes
        simp only [decide_eq_false_iff_not]
        intro hinf
        have : (jsToLower name).data = [] := List.eq_nil_of_infix_nil hinf
        refine jsToLower_ne_empty name h ?_
        cases hmk : jsToLower name
        simp_all
      simp [hni]
    · simp [hn]

/-- C3: for every non-empty requested name, `findBestMatch` is exactly the
three-tier selector the specification describes — first case-insensitive
exact display-name match, else first case-insensitive substring match,
else the first candidate — and it returns `none` exactly on the empty
candidate list. -/
theorem selector_three_tier (name : String) (h : name ≠ "") (candidates : List Candidate) :
    findBestMatch name candidates = selectSpec name candidates ∧
    (findBestMatch name candidates = none ↔ candidates = []) := by
  have hx := find?_congr_pred (nameMatchesExact name) (selectSpecExact name) candidates
    (nameMatchesExact_eq_spec name h)
  have hp := find?_congr_pred (nameMatchesPartial name) (selectSpecPartial name) candidates
    (nameMatchesPartial_eq_spec name h)
  cases candidates with
  | nil => exact ⟨rfl, by simp [findBestMatch]⟩
  | cons c rest =>
    constructor
    · unfold findBestMatch selectSpec
      rw [hx, hp]
      simp
    · unfold findBestMatch
      rw [hx, hp]
      simp only [List.isEmpty_cons, Bool.false_eq_true, if_false]
      constructor
      · intro hnone
        exfalso
        cases h1 : List.find? (selectSpecExact name) (c :: rest) with
        | some v => simp [h1] at hnone
        | none =>
          cases h2 : List.find? (selectSpecPartial name) (c :: rest) with
          | some v => simp [h1, h2] at hnone
          | none => simp [h1, h2] at hnone
      · intro hc
        exact absurd hc (by simp)

/-- C3 witness: with candidates named `Foo` and `foobar` and request
`foobar`, and with candidate `FOO` and request `foo`, the selector follows
the specification's tiers. -/
theorem selector_three_tier_witness :
    (findBestMatch "foobar" [{ id := "1", name := some "Foo", inLibrary := true },
                             { id := "2", name := some "foobar", inLibrary := true }] =
      selectSpec "foobar" [{ id := "1", name := some "Foo", inLibrary := true },
                           { id := "2", name := some "foobar", inLibrary := true }]) ∧
    (findBestMatch "foo" [{ id := "3", name := some "FOO", inLibrary := true }] =
      some { id := "3", name := some "FOO", inLibrary := true }) :=
  ⟨(selector_three_tier "foobar" (by decide)
      [{ id := "1", name := some "Foo", inLibrary := true },
       { id := "2", name := some "foobar", inLibrary := true }]).1,
   by
    have := (selector_three_tier "foo" (by decide)
      [{ id := "3", name := some "FOO", inLibrary := true }]).1
    rw [this]
    decide⟩

/-- C7: distinct GraphQL error conditions map to distinct fixed messages:
a 403/Forbidden condition to the not-owned message, a 401/Unauthorized
condition (absent a 403 token) to the auth-expired message, and a
404/Not-Found condition (absent the former) to the not-found message; the
three messages are pairwise distinct. -/
theorem issuer_error_mapping (env : GqlEnv) (tok : String) (response : FetchResponse)
    (result : GqlBody)
    (h1 : env.authToken = some tok) (h2 : env.fetchResult = .ok response)
    (h3 : response.ok = true) (h4 : response.body = .ok result)
    (h5 : result.errors ≠ []) :
    ((strIncludes (String.intercalate ", " result.errors) "403" ||
      strIncludes (String.intercalate ", " result.errors) "Forbidden") = true →
      executeInPageContext env = .error msgIssuanceNotOwned) ∧
    ((strIncludes (String.intercalate ", " result.errors) "403" ||
      strIncludes (String.intercalate ", " result.errors) "Forbidden") = false →
     (strIncludes (String.intercalate ", " result.errors) "401" ||
      strIncludes (String.intercalate ", " result.errors) "Unauthorized") = true →
      executeInPageContext env = .error msgIssuanceAuthExpired) ∧
    ((strIncludes (String.intercalate ", " result.errors) "403" ||
      strIncludes (String.intercalate ", " result.errors) "Forbidden") = false →
     (strIncludes (String.intercalate ", " result.errors) "401" ||
      strIncludes (String.intercalate ", " result.errors) "Unauthorized") = false →
     (strIncludes (String.intercalate ", " result.errors) "404" ||
      strIncludes (String.intercalate ", " result.errors) "Not Found") = true →
      executeInPageContext env = .error msgIssuanceNotFound) ∧
    msgIssuanceNotOwned ≠ msgIssuanceAuthExpired ∧
    msgIssuanceAuthExpired ≠ msgIssuanceNotFound ∧
    msgIssuanceNotOwned ≠ msgIssuanceNotFound := by
  have he : result.errors.isEmpty = false := by
    cases hr : result.errors with
    | nil => exact absurd hr h5
    | cons a rest => rfl
  refine ⟨?_, ?_, ?_, by decide, by decide, by decide⟩
  · intro hc
    simp [executeInPageContext, h1, h2, h3, h4, he, hc]
  · intro hc1 hc2
    simp [executeInPageContext, h1, h2, h3, h4, he, hc1, hc2]
  · intro hc1 hc2 hc3
    simp [executeInPageContext, h1, h2, h3, h4, he, hc1, hc2, hc3]

/-- C7 witness: a concrete 403 response maps to the not-owned message. -/
theorem issuer_error_mapping_witness :
    executeInPageContext envGql403 = .error msgIssuanceNotOwned :=
  (issuer_error_mapping envGql403 "tok"
    { ok := true, statusText := "OK"
      body := .ok { errors := ["Request failed with status code 403"], proofOfLicense := none } }
    { errors := ["Request failed with status code 403"], proofOfLicense := none }
    rfl rfl rfl rfl (by decide)).1 (by decide)

/-- C4 counterexample: with an unexpired `_splice_token_prod` present
alongside an expired `auth0` cookie, the cookie check answers
`loggedIn := false` (reason `auth0_expired`), not `Authenticated` as the
claim's "regardless of the identity token's state" requires. -/
theorem cookie_check_expired_auth0_overrides_token :
    ((uniqueCookiesOf cenvTokenAndExpiredAuth0).find?
        (fun c => c.name == "_splice_token_prod") = some ckSpliceToken) ∧
    ckSpliceToken.expirationDate = some 99999 ∧
    cenvTokenAndExpiredAuth0.now < 99999 ∧
    checkAuthViaCookies cenvTokenAndExpiredAuth0 =
      some { loggedIn := false, reason := some "auth0_expired" } := by
  refine ⟨by decide, by decide, by decide, by decide⟩

/-- Deduplication of a one-cookie list is the identity. -/
theorem uniqueCookies_singleton (c : Cookie) : uniqueCookies [c] = [c] := by
  simp [uniqueCookies, dedupKeysAux, lastWithKey, List.filterMap]

/-- C4 amended: a cookie set whose only entry is an expired `auth0` token
yields `Unauthenticated{auth0_expired}`; and the unexpired session token
yields `Authenticated` provided the `auth0` expiry test does not fire —
an expired `auth0` cookie forces `Unauthenticated` even when the session
token is present. -/
theorem cookie_check_amended (env : CookieEnv) (h : env.getAllFails = false) :
    (∀ c, allCookiesOf env = [c] → c.name = "auth0" →
      ∀ e, c.expirationDate = some e → e ≠ 0 → e < env.now →
      checkAuthViaCookies env = some { loggedIn := false, reason := some "auth0_expired" }) ∧
    (∀ c, (uniqueCookiesOf env).find? (fun k => k.name == "_splice_token_prod") = some c →
      auth0ExpiredOf env = false →
      checkAuthViaCookies env = some { loggedIn := true, reason := none }) := by
  constructor
  · intro c hall hname e hexp hne hlt
    have hu : uniqueCookiesOf env = [c] := by
      rw [uniqueCookiesOf, hall]
      exact uniqueCookies_singleton c
    have hexpired : auth0ExpiredOf env = true := by
      unfold auth0ExpiredOf
      rw [hu]
      simp [List.find?, hname, hexp, bne, hne, hlt]
    unfold checkAuthViaCookies
    rw [h]
    simp [hu, hexpired]
  · intro c hfind hnexp
    have hmem : c ∈ uniqueCookiesOf env := List.mem_of_find?_eq_some hfind
    have hne : (uniqueCookiesOf env).isEmpty = false := by
      cases hl : uniqueCookiesOf env with
      | nil => rw [hl] at hmem; cases hmem
      | cons a rest => rfl
    unfold checkAuthViaCookies
    rw [h]
    simp [hne, hnexp, hfind]

/-- C4 amended witness: the lone expired `auth0` cookie set, and the lone
session-token cookie set. -/
theorem cookie_check_amended_witness :
    checkAuthViaCookies cenvOnlyExpiredAuth0 =
      some { loggedIn := false, reason := some "auth0_expired" } ∧
    checkAuthViaCookies cenvTokenOnly = some { loggedIn := true, reason := none } :=
  ⟨(cookie_check_amended cenvOnlyExpiredAuth0 rfl).1 ckAuth0Expired rfl rfl 5 rfl
      (by decide) (by decide),
   (cookie_check_amended cenvTokenOnly rfl).2 ckSpliceToken (by decide) (by decide)⟩

/-- C5 counterexample: the cookie check tentatively answers
`Authenticated`, no platform tab is reachable, and the final verdict is
`loggedIn := false` — the DOM step's unavailability overrides the
tentative cookie verdict instead of letting it stand. -/
theorem session_dom_failure_overrides :
    checkAuthViaCookies senvNoTab.cookieEnv = some { loggedIn := true, reason := none } ∧
    tabReachable senvNoTab = false ∧
    checkUserLoggedIn senvNoTab =
      { loggedIn := false, error := some "Not on Splice.com" } := by
  refine ⟨by decide, by decide, by decide⟩

/-- A conclusive first response leaves a cookie-authenticated session
logged in, whatever the response says. -/
theorem domSessionStep_ok_keeps_auth (ca : CookieAuth) (hl : ca.loggedIn = true)
    (r : Option SessionResponse) (inject : Except String Unit)
    (send2 : Except String (Option SessionResponse)) (flag : Bool) :
    (domSessionStep (some ca) (.ok r) inject send2 flag).loggedIn = true := by
  unfold domSessionStep
  cases r with
  | none => simp [hl]
  | some resp =>
    by_cases hr : resp.loggedIn = true
    · simp [hr]
    · simp [hr, hl]

/-- A first-message failure whose retry does not end in a positive
response yields the cannot-communicate status. -/
theorem domSessionStep_comm_failure (cookieAuth : Option CookieAuth) (e : String)
    (inject : Except String Unit) (send2 : Except String (Option SessionResponse))
    (flag : Bool)
    (hfail : ((strIncludes e "Receiving end does not exist" ||
               (flag && strIncludes e "Extension context invalidated")) &&
              (match inject, send2 with
               | .ok _, .ok (some r) => r.loggedIn
               | _, _ => false)) = false) :
    domSessionStep cookieAuth (.error e) inject send2 flag = cannotCommunicate := by
  unfold domSessionStep
  dsimp only
  by_cases hel : (strIncludes e "Receiving end does not exist" ||
                  (flag && strIncludes e "Extension context invalidated")) = true
  · rw [if_pos hel]
    rw [hel, Bool.true_and] at hfail
    cases hi : inject with
    | error _ => rfl
    | ok _ =>
      cases hs : send2 with
      | error _ => rfl
      | ok r =>
        cases r with
        | none => rfl
        | some resp =>
          rw [hi, hs] at hfail
          dsimp only at hfail
          simp [hfail]
  · rw [if_neg hel]

/-- C5 amended: when the cookie check tentatively answers `Authenticated`,
a delivered DOM response — even a negative one — leaves the final verdict
logged-in (`cookies_override`); but when no platform tab is reachable the
check returns `Unauthenticated{Not on Splice.com}`, and when the message
channel fails without a successful retry it returns the
cannot-communicate `Unauthenticated` status, overriding the tentative
verdict. -/
theorem session_corroboration_amended (env : SessionEnv) (hc : env.cache = none)
    (ca : CookieAuth) (hca : checkAuthViaCookies env.cookieEnv = some ca)
    (hl : ca.loggedIn = true) :
    (∀ r, env.send1 = .ok r → tabReachable env = true →
      (checkUserLoggedIn env).loggedIn = true) ∧
    (tabReachable env = false →
      checkUserLoggedIn env = { loggedIn := false, error := some "Not on Splice.com" }) ∧
    (∀ e, env.send1 = .error e → tabReachable env = true →
      (retryEligible env e && retrySucceeds env) = false →
      checkUserLoggedIn env = cannotCommunicate) := by
  have hbody : checkUserLoggedIn env =
      (if !onSpliceTab env then
        if env.spliceTabs.isEmpty then
          { loggedIn := false, error := some "Not on Splice.com" }
        else domSessionStep (checkAuthViaCookies env.cookieEnv) env.send1 env.inject env.send2 true
      else domSessionStep (checkAuthViaCookies env.cookieEnv) env.send1 env.inject env.send2 false) := by
    unfold checkUserLoggedIn
    rw [hc]
    simp [hca, hl]
  refine ⟨?_, ?_, ?_⟩
  · intro r hs hreach
    rw [hbody, hca]
    by_cases ht : onSpliceTab env = true
    · rw [ht]
      simp only [Bool.not_true, Bool.false_eq_true, if_false]
      rw [hs]
      exact domSessionStep_ok_keeps_auth ca hl r env.inject env.send2 false
    · have ht' : onSpliceTab env = false := by
        cases honb : onSpliceTab env
        · rfl
        · exact absurd honb ht
      have hne : env.spliceTabs.isEmpty = false := by
        unfold tabReachable at hreach
        rw [ht'] at hreach
        simp at hreach
        simp [hreach]
      rw [ht', hne]
      simp only [Bool.not_false, if_true, Bool.false_eq_true, if_false]
      rw [hs]
      exact domSessionStep_ok_keeps_auth ca hl r env.inject env.send2 true
  · intro hreach
    have ht : onSpliceTab env = false := by
      unfold tabReachable at hreach
      cases honb : onSpliceTab env
      · rfl
      · rw [honb] at hreach; simp at hreach
    have he : env.spliceTabs.isEmpty = true := by
      unfold tabReachable at hreach
      rw [ht] at hreach
      simp at hreach
      simp [hreach]
    rw [hbody, ht, he]
    rfl
  · intro e hs hreach hfail
    rw [hbody, hca]
    unfold retryEligible retrySucceeds at hfail
    by_cases ht : onSpliceTab env = true
    · rw [ht]
      simp only [Bool.not_true, Bool.false_eq_true, if_false]
      rw [hs]
      rw [ht] at hfail
      simp only [Bool.not_true, Bool.false_and, Bool.or_false] at hfail
      refine domSessionStep_comm_failure _ e env.inject env.send2 false ?_
      simpa using hfail
    · have ht' : onSpliceTab env = false := by
        cases honb : onSpliceTab env
        · rfl
        · exact absurd honb ht
      have hne : env.spliceTabs.isEmpty = false := by
        unfold tabReachable at hreach
        rw [ht'] at hreach
        simp at hreach
        simp [hreach]
      rw [ht', hne]
      simp only [Bool.not_false, if_true, Bool.false_eq_true, if_false]
      rw [hs]
      rw [ht'] at hfail
      simp only [Bool.not_false, Bool.true_and] at hfail
      exact domSessionStep_comm_failure _ e env.inject env.send2 true hfail

/-- C5 amended witness: the negative-DOM-response environment keeps the
session logged in; the no-tab environment and the torn-channel
environment both end unauthenticated. -/
theorem session_corroboration_amended_witness :
    (checkUserLoggedIn senvDomSaysNo).loggedIn = true ∧
    checkUserLoggedIn senvNoTab = { loggedIn := false, error := some "Not on Splice.com" } ∧
    checkUserLoggedIn senvCommFails = cannotCommunicate :=
  ⟨(session_corroboration_amended senvDomSaysNo rfl { loggedIn := true, reason := none }
      (by decide) rfl).1 (some { loggedIn := false, user := none }) rfl (by decide),
   (session_corroboration_amended senvNoTab rfl { loggedIn := true, reason := none }
      (by decide) rfl).2.1 (by decide),
   (session_corroboration_amended senvCommFails rfl { loggedIn := true, reason := none }
      (by decide) rfl).2.2
      "Could not establish connection. Receiving end does not exist."
      rfl (by decide) (by decide)⟩

/-! ### Base64 round trip -/

/-- Decoding inverts the alphabet on sextet values. -/
theorem b64Index_sextetChar : ∀ n, n < 64 → b64Index (sextetChar n) = some n := by decide

/-- Sextet characters lie in the alphabet (out-of-range values fall back to
the default, itself an alphabet character). -/
theorem sextetChar_mem (n : Nat) : sextetChar n ∈ b64Alphabet := by
  unfold sextetChar
  by_cases h : n < b64Alphabet.length
  · rw [List.getD_eq_getElem?_getD, List.getElem?_eq_getElem h]
    exact List.getElem_mem h
  · rw [List.getD_eq_getElem?_getD, List.getElem?_eq_none (by omega)]
    decide

/-- No alphabet character is base64 whitespace. -/
theorem b64Alphabet_not_space : ∀ c ∈ b64Alphabet, isB64Space c = false := by decide

/-- No alphabet character is the pad. -/
theorem b64Alphabet_ne_pad : ∀ c ∈ b64Alphabet, c ≠ '=' := by decide

/-- Every encoded character is an alphabet character or the pad. -/
theorem encodeBytes_mem : ∀ bs, ∀ c ∈ encodeBytes bs, c ∈ b64Alphabet ∨ c = '='
  | [], c, hc => by cases hc
  | [a], c, hc => by
    simp only [encodeBytes, List.mem_cons, List.mem_singleton] at hc
    rcases hc with h | h | h | h
    · exact Or.inl (h ▸ sextetChar_mem _)
    · exact Or.inl (h ▸ sextetChar_mem _)
    · exact Or.inr h
    · exact Or.inr (by simp_all)
  | [a, b], c, hc => by
    simp only [encodeBytes, List.mem_cons, List.mem_singleton] at hc
    rcases hc with h | h | h | h
    · exact Or.inl (h ▸ sextetChar_mem _)
    · exact Or.inl (h ▸ sextetChar_mem _)
    · exact Or.inl (h ▸ sextetChar_mem _)
    · exact Or.inr (by simp_all)
  | a :: b :: c' :: rest, c, hc => by
    simp only [encodeBytes, List.mem_cons] at hc
    rcases hc with h | h | h | h | h
    · exact Or.inl (h ▸ sextetChar_mem _)
    · exact Or.inl (h ▸ sextetChar_mem _)
    · exact Or.inl (h ▸ sextetChar_mem _)
    · exact Or.inl (h ▸ sextetChar_mem _)
    · exact encodeBytes_mem rest c h

/-- Whitespace filtering leaves an encoded list unchanged. -/
theorem filter_encodeBytes (bs : List Nat) :
    (encodeBytes bs).filter (fun c => !isB64Space c) = encodeBytes bs := by
  refine List.filter_eq_self.mpr ?_
  intro c hc
  rcases encodeBytes_mem bs c hc with h | h
  · simp [b64Alphabet_not_space c h]
  · subst h; decide

/-- Encoded length is a multiple of four. -/
theorem encodeBytes_length_mod : ∀ bs, (encodeBytes bs).length % 4 = 0
  | [] => rfl
  | [_] => by simp [encodeBytes]
  | [_, _] => by simp [encodeBytes]
  | a :: b :: c :: rest => by
    have ih := encodeBytes_length_mod rest
    simp only [encodeBytes, List.length_cons]
    omega

/-- A non-empty byte list encodes to at least four characters. -/
theorem encodeBytes_length_ge : ∀ bs : List Nat, bs ≠ [] → 4 ≤ (encodeBytes bs).length
  | [], h => absurd rfl h
  | [_], _ => by simp [encodeBytes]
  | [_, _], _ => by simp [encodeBytes]
  | _ :: _ :: _ :: rest, _ => by simp [encodeBytes]

/-- Pad stripping commutes with a prefix when the suffix keeps at least two
characters. -/
theorem dropPad_append (A E : List Char) (h : 2 ≤ E.length) :
    dropPad (A ++ E) = A ++ dropPad E := by
  cases hE : E.reverse with
  | nil =>
    have hnil : E = [] := by simpa using congrArg List.reverse hE
    rw [hnil] at h
    simp at h
  | cons z t =>
    cases t with
    | nil =>
      have hlen : E.length = 1 := by
        have := congrArg List.length hE
        simpa using this
      omega
    | cons y G =>
      unfold dropPad
      rw [List.reverse_append, hE]
      simp only [List.cons_append]
      by_cases hz : z = '='
      · by_cases hy : y = '='
        · simp [dropPadRev, hz, hy, List.reverse_append]
        · simp [dropPadRev, hz, hy, List.reverse_append]
      · simp [dropPadRev, hz, List.reverse_append]

/-- Pad stripping turns padded encoding into unpadded encoding. -/
theorem dropPad_encodeBytes : ∀ bs : List Nat, dropPad (encodeBytes bs) = encodeSext bs
  | [] => rfl
  | [a] => by
    simp [encodeBytes, encodeSext, dropPad, dropPadRev]
  | [a, b] => by
    have h3 : sextetChar (b % 16 * 4) ≠ '=' := b64Alphabet_ne_pad _ (sextetChar_mem _)
    simp [encodeBytes, encodeSext, dropPad, dropPadRev, h3]
  | [a, b, c] => by
    have h4 : sextetChar (c % 64) ≠ '=' := b64Alphabet_ne_pad _ (sextetChar_mem _)
    simp [encodeBytes, encodeSext, dropPad, dropPadRev, h4]
  | a :: b :: c :: d :: rest => by
    have hlen : 2 ≤ (encodeBytes (d :: rest)).length := by
      have := encodeBytes_length_ge (d :: rest) (by intro hc; cases hc)
      omega
    have h1 : encodeBytes (a :: b :: c :: d :: rest) =
        [sextetChar (a / 4), sextetChar (a % 4 * 16 + b / 16),
         sextetChar (b % 16 * 4 + c / 64), sextetChar (c % 64)] ++ encodeBytes (d :: rest) := rfl
    have h2 : encodeSext (a :: b :: c :: d :: rest) =
        [sextetChar (a / 4), sextetChar (a % 4 * 16 + b / 16),
         sextetChar (b % 16 * 4 + c / 64), sextetChar (c % 64)] ++ encodeSext (d :: rest) := rfl
    rw [h1, h2, dropPad_append _ _ hlen, dropPad_encodeBytes (d :: rest)]

/-- Unpadded encoding decodes to the sextet values. -/
theorem mapSextets_encodeSext : ∀ bs : List Nat, (∀ b ∈ bs, b < 256) →
    mapSextets (encodeSext bs) = some (toSextets bs)
  | [], _ => rfl
  | [a], h => by
    have ha : a < 256 := h a (by simp)
    have h1 : a / 4 < 64 := by omega
    have h2 : a % 4 * 16 < 64 := by omega
    simp [encodeSext, toSextets, mapSextets,
      b64Index_sextetChar _ h1, b64Index_sextetChar _ h2]
  | [a, b], h => by
    have ha : a < 256 := h a (by simp)
    have hb : b < 256 := h b (by simp)
    have h1 : a / 4 < 64 := by omega
    have h2 : a % 4 * 16 + b / 16 < 64 := by omega
    have h3 : b % 16 * 4 < 64 := by omega
    simp [encodeSext, toSextets, mapSextets,
      b64Index_sextetChar _ h1, b64Index_sextetChar _ h2, b64Index_sextetChar _ h3]
  | a :: b :: c :: rest, h => by
    have ha : a < 256 := h a (by simp)
    have hb : b < 256 := h b (by simp)
    have hc : c < 256 := h c (by simp)
    have h1 : a / 4 < 64 := by omega
    have h2 : a % 4 * 16 + b / 16 < 64 := by omega
    have h3 : b % 16 * 4 + c / 64 < 64 := by omega
    have h4 : c % 64 < 64 := by omega
    have ih := mapSextets_encodeSext rest (fun x hx => h x (by simp [hx]))
    cases hrest : rest with
    | nil =>
      simp [encodeSext, toSextets, mapSextets,
        b64Index_sextetChar _ h1, b64Index_sextetChar _ h2,
        b64Index_sextetChar _ h3, b64Index_sextetChar _ h4]
    | cons r rs =>
      rw [hrest] at ih
      have e1 : encodeSext (a :: b :: c :: r :: rs) =
          sextetChar (a / 4) :: sextetChar (a % 4 * 16 + b / 16) ::
          sextetChar (b % 16 * 4 + c / 64) :: sextetChar (c % 64) ::
          encodeSext (r :: rs) := rfl
      have e2 : toSextets (a :: b :: c :: r :: rs) =
          a / 4 :: (a % 4 * 16 + b / 16) :: (b % 16 * 4 + c / 64) :: c % 64 ::
          toSextets (r :: rs) := rfl
      rw [e1, e2]
      simp [mapSextets, b64Index_sextetChar _ h1, b64Index_sextetChar _ h2,
        b64Index_sextetChar _ h3, b64Index_sextetChar _ h4, ih]

/-- Reassembling the sextets recovers the bytes. -/
theorem sextetsToBytes_toSextets : ∀ bs : List Nat, (∀ b ∈ bs, b < 256) →
    sextetsToBytes (toSextets bs) = some bs
  | [], _ => rfl
  | [a], h => by
    have ha : a < 256 := h a (by simp)
    simp only [toSextets, sextetsToBytes, Option.some.injEq, List.cons.injEq, and_true]
    omega
  | [a, b], h => by
    have ha : a < 256 := h a (by simp)
    have hb : b < 256 := h b (by simp)
    simp only [toSextets, sextetsToBytes, Option.some.injEq, List.cons.injEq, and_true]
    constructor
    all_goals omega
  | a :: b :: c :: rest, h => by
    have ha : a < 256 := h a (by simp)
    have hb : b < 256 := h b (by simp)
    have hc : c < 256 := h c (by simp)
    have ih := sextetsToBytes_toSextets rest (fun x hx => h x (by simp [hx]))
    have e1 : a / 4 * 4 + (a % 4 * 16 + b / 16) / 16 = a := by omega
    have e2 : (a % 4 * 16 + b / 16) % 16 * 16 + (b % 16 * 4 + c / 64) / 4 = b := by omega
    have e3 : (b % 16 * 4 + c / 64) % 4 * 64 + c % 64 = c := by omega
    cases hrest : rest with
    | nil =>
      simp [toSextets, sextetsToBytes, e1, e2, e3]
    | cons r rs =>
      rw [hrest] at ih
      have t1 : toSextets (a :: b :: c :: r :: rs) =
          a / 4 :: (a % 4 * 16 + b / 16) :: (b % 16 * 4 + c / 64) :: c % 64 ::
          toSextets (r :: rs) := rfl
      rw [t1]
      have t2 : toSextets (r :: rs) ≠ [] := by
        cases hrs : rs with
        | nil => simp [toSextets]
        | cons r2 rs2 =>
          cases hrs2 : rs2 with
          | nil => simp [toSextets]
          | cons r3 rs3 => simp [toSextets]
      cases ht : toSextets (r :: rs) with
      | nil => exact absurd ht t2
      | cons s ss =>
        rw [ht] at ih
        simp [sextetsToBytes, ih, e1, e2, e3]

/-- Unpadded encoded length is never 1 modulo 4. -/
theorem encodeSext_length_mod : ∀ bs : List Nat, (encodeSext bs).length % 4 ≠ 1
  | [] => by simp [encodeSext]
  | [_] => by simp [encodeSext]
  | [_, _] => by simp [encodeSext]
  | a :: b :: c :: rest => by
    have ih := encodeSext_length_mod rest
    simp only [encodeSext, List.length_cons]
    omega

/-- Decoding inverts encoding on byte lists. -/
theorem atobChars_encodeBytes (bs : List Nat) (h : ∀ b ∈ bs, b < 256) :
    atobChars (encodeBytes bs) = some bs := by
  unfold atobChars
  dsimp only
  rw [filter_encodeBytes]
  have hm : ((encodeBytes bs).length % 4 == 0) = true := by
    simp [encodeBytes_length_mod bs]
  rw [hm]
  simp only [if_true]
  rw [dropPad_encodeBytes]
  have hm1 : ((encodeSext bs).length % 4 == 1) = false := by
    simp [encodeSext_length_mod bs]
  rw [hm1]
  simp only [Bool.false_eq_true, if_false]
  rw [mapSextets_encodeSext bs h]
  exact sextetsToBytes_toSextets bs h

/-- Rebuilding a string from its own character list is the identity. -/
theorem stringMk_data (s : String) : String.mk s.data = s := by
  cases s
  rfl

/-- Base64 round trip on Latin-1 strings: decoding what `btoa` encoded
gives the original string back. -/
theorem atobStr_btoaStr (s : String) (h : s.data.all (fun c => c.toNat < 256) = true) :
    btoaStr s = some (String.mk (encodeBytes (s.data.map Char.toNat))) ∧
    atobStr (String.mk (encodeBytes (s.data.map Char.toNat))) = some s := by
  constructor
  · unfold btoaStr
    rw [h]
    rfl
  · unfold atobStr
    have hb : ∀ b ∈ s.data.map Char.toNat, b < 256 := by
      intro b hbm
      rcases List.mem_map.mp hbm with ⟨c, hc, hcb⟩
      have hp := List.all_eq_true.mp h c hc
      rw [← hcb]
      exact of_decide_eq_true hp
    have hdata : (String.mk (encodeBytes (s.data.map Char.toNat))).data =
        encodeBytes (s.data.map Char.toNat) := rfl
    rw [hdata, atobChars_encodeBytes _ hb]
    simp only [Option.some.injEq]
    rw [List.map_map]
    have hcomp : (Char.ofNat ∘ Char.toNat) = fun c : Char => c := by
      funext c
      exact Char.ofNat_toNat c
    rw [hcomp, List.map_id']

/-! ### JSON completeness -/

/-- Hexadecimal digits round-trip through the digit table. -/
theorem hexVal_hexChar : ∀ n, n < 16 → hexVal (hexChar n) = some n := by decide


/-- Reading an escaped string body recovers the characters, leaving
whatever follows the closing quote. -/
theorem parseStrBody_escapeList : ∀ cs rest,
    parseStrBody (escapeList cs ++ '"' :: rest) = some (cs, rest)
  | [], rest => by
    unfold escapeList
    rw [List.nil_append]
    unfold parseStrBody
    simp +decide
  | c :: cs', rest => by
    have ih := parseStrBody_escapeList cs' rest
    unfold escapeList
    rw [List.append_assoc]
    by_cases h1 : c = '"'
    · subst h1
      have he : escapeChar '"' = ['\\', '"'] := rfl
      rw [he]
      simp only [List.cons_append, List.nil_append]
      unfold parseStrBody
      simp +decide [ih]
    · by_cases h2 : c = '\\'
      · subst h2
        have he : escapeChar '\\' = ['\\', '\\'] := rfl
        rw [he]
        simp only [List.cons_append, List.nil_append]
        unfold parseStrBody
        simp +decide [ih]
      · by_cases h3 : c = '\x08'
        · subst h3
          have he : escapeChar '\x08' = ['\\', 'b'] := rfl
          rw [he]
          simp only [List.cons_append, List.nil_append]
          unfold parseStrBody
          simp +decide [ih]
        · by_cases h4 : c = '\x09'
          · subst h4
            have he : escapeChar '\x09' = ['\\', 't'] := rfl
            rw [he]
            simp only [List.cons_append, List.nil_append]
            unfold parseStrBody
            simp +decide [ih]
          · by_cases h5 : c = '\x0a'
            · subst h5
              have he : escapeChar '\x0a' = ['\\', 'n'] := rfl
              rw [he]
              simp only [List.cons_append, List.nil_append]
              unfold parseStrBody
              simp +decide [ih]
            · by_cases h6 : c = '\x0c'
              · subst h6
                have he : escapeChar '\x0c' = ['\\', 'f'] := rfl
                rw [he]
                simp only [List.cons_append, List.nil_append]
                unfold parseStrBody
                simp +decide [ih]
              · by_cases h7 : c = '\x0d'
                · subst h7
                  have he : escapeChar '\x0d' = ['\\', 'r'] := rfl
                  rw [he]
                  simp only [List.cons_append, List.nil_append]
                  unfold parseStrBody
                  simp +decide [ih]
                · by_cases h8 : c.toNat < 32
                  · have he : escapeChar c =
                        '\\' :: 'u' :: '0' :: '0' :: hexChar (c.toNat / 16) ::
                        [hexChar (c.toNat % 16)] := by
                      simp [escapeChar, h1, h2, h3, h4, h5, h6, h7, h8]
                    have hd1 : hexVal (hexChar (c.toNat / 16)) = some (c.toNat / 16) :=
                      hexVal_hexChar _ (by omega)
                    have hd2 : hexVal (hexChar (c.toNat % 16)) = some (c.toNat % 16) :=
                      hexVal_hexChar _ (by omega)
                    have hv : c.toNat / 16 * 16 + c.toNat % 16 = c.toNat := by omega
                    rw [he]
                    simp only [List.cons_append, List.nil_append]
                    unfold parseStrBody
                    have h0 : hexVal '0' = some 0 := rfl
                    simp +decide [h0, hd1, hd2, hv, Char.ofNat_toNat, ih]
                  · have he : escapeChar c = [c] := by
                      simp [escapeChar, h1, h2, h3, h4, h5, h6, h7, h8]
                    rw [he]
                    simp only [List.cons_append, List.nil_append]
                    unfold parseStrBody
                    simp +decide [h1, h2, h8, ih]

/-- Serialized values start with one of six characters, none of which
closes a bracket. -/
theorem stringifyVal_shape (v : Json) : ∃ c t, stringifyVal v = c :: t ∧
    (c = 'n' ∨ c = 't' ∨ c = 'f' ∨ c = '"' ∨ c = '[' ∨ c = '\x7b') := by
  cases v with
  | null => exact ⟨'n', _, rfl, by simp⟩
  | bool b =>
    cases b with
    | true => exact ⟨'t', _, rfl, by simp⟩
    | false => exact ⟨'f', _, rfl, by simp⟩
  | str s => exact ⟨'"', _, rfl, by simp⟩
  | arr l => exact ⟨'[', _, rfl, by simp⟩
  | obj l => exact ⟨'\x7b', _, rfl, by simp⟩

/-- A non-empty element list serializes to its head's text followed by a
tail. -/
theorem stringifyElems_cons (x : Json) (xs : List Json) :
    ∃ tail, stringifyElems (x :: xs) = stringifyVal x ++ tail := by
  cases xs with
  | nil => exact ⟨[], by simp [stringifyElems]⟩
  | cons w ws => exact ⟨',' :: stringifyElems (w :: ws), rfl⟩

/-- A serialized non-empty element list never starts with the closing
bracket. -/
theorem stringifyElems_head_ne (x : Json) (xs : List Json) (tl : List Char) :
    headCharIs (stringifyElems (x :: xs) ++ tl) ']' = false := by
  obtain ⟨tail, htail⟩ := stringifyElems_cons x xs
  obtain ⟨c, t, hct, hc6⟩ := stringifyVal_shape x
  rw [htail, hct]
  simp only [List.cons_append]
  rcases hc6 with h | h | h | h | h | h
  all_goals subst h
  all_goals simp +decide [headCharIs]

/-- A serialized non-empty member list starts with a quote, never with the
closing brace. -/
theorem stringifyFields_head_ne (k : String) (v : Json) (fs : List (String × Json))
    (tl : List Char) :
    headCharIs (stringifyFields ((k, v) :: fs) ++ tl) '\x7d' = false := by
  have hsh : ∃ tail, stringifyFields ((k, v) :: fs) = '"' :: tail := by
    cases fs with
    | nil => exact ⟨_, rfl⟩
    | cons f fs' => exact ⟨_, rfl⟩
  obtain ⟨tail, htail⟩ := hsh
  rw [htail]
  simp +decide [headCharIs]

mutual

/-- The reader is complete on serialized values: with enough fuel, reading
a value's text recovers the value and leaves the remainder. -/
theorem parseValue_complete : ∀ (v : Json) (fuel : Nat) (rest : List Char),
    2 * (stringifyVal v).length ≤ fuel →
    parseValue fuel (stringifyVal v ++ rest) = some (v, rest)
  | .null, fuel, rest, hf => by
    cases fuel with
    | zero => simp [stringifyVal] at hf
    | succ f =>
      show parseValue (f + 1) ('n' :: 'u' :: 'l' :: 'l' :: rest) = some (.null, rest)
      unfold parseValue
      simp +decide [parseNull]
  | .bool true, fuel, rest, hf => by
    cases fuel with
    | zero => simp [stringifyVal] at hf
    | succ f =>
      show parseValue (f + 1) ('t' :: 'r' :: 'u' :: 'e' :: rest) = some (.bool true, rest)
      unfold parseValue
      simp +decide [parseTrue]
  | .bool false, fuel, rest, hf => by
    cases fuel with
    | zero => simp [stringifyVal] at hf
    | succ f =>
      show parseValue (f + 1) ('f' :: 'a' :: 'l' :: 's' :: 'e' :: rest) = some (.bool false, rest)
      unfold parseValue
      simp +decide [parseFalse]
  | .str s, fuel, rest, hf => by
    cases fuel with
    | zero => simp [stringifyVal, quoteChars] at hf
    | succ f =>
      have hin : stringifyVal (.str s) ++ rest =
          '"' :: (escapeList s.data ++ '"' :: rest) := by
        simp [stringifyVal, quoteChars]
      rw [hin]
      unfold parseValue
      simp +decide [parseStrBody_escapeList s.data rest, stringMk_data]
  | .arr [], fuel, rest, hf => by
    cases fuel with
    | zero => simp [stringifyVal] at hf
    | succ f =>
      show parseValue (f + 1) ('[' :: ']' :: rest) = some (.arr [], rest)
      unfold parseValue
      simp +decide [headCharIs]
  | .arr (x :: xs), fuel, rest, hf => by
    have hlen : (stringifyVal (.arr (x :: xs))).length =
        (stringifyElems (x :: xs)).length + 2 := by
      simp [stringifyVal]
    cases fuel with
    | zero => rw [hlen] at hf; omega
    | succ f =>
      have hin : stringifyVal (.arr (x :: xs)) ++ rest =
          '[' :: (stringifyElems (x :: xs) ++ ']' :: rest) := by
        simp [stringifyVal]
      rw [hin]
      have he : parseElems f (stringifyElems (x :: xs) ++ ']' :: rest) =
          some (x :: xs, ']' :: rest) := by
        refine parseElems_complete (x :: xs) f (']' :: rest) (by simp) ?_ ?_
        · rw [hlen] at hf; omega
        · intro r' hcontra
          cases hcontra
      unfold parseValue
      simp +decide [stringifyElems_head_ne x xs (']' :: rest), he, finishArr]
  | .obj [], fuel, rest, hf => by
    cases fuel with
    | zero => simp [stringifyVal] at hf
    | succ f =>
      show parseValue (f + 1) ('\x7b' :: '\x7d' :: rest) = some (.obj [], rest)
      unfold parseValue
      simp +decide [headCharIs]
  | .obj ((k, v) :: fs), fuel, rest, hf => by
    have hlen : (stringifyVal (.obj ((k, v) :: fs))).length =
        (stringifyFields ((k, v) :: fs)).length + 2 := by
      simp [stringifyVal]
    cases fuel with
    | zero => rw [hlen] at hf; omega
    | succ f =>
      have hin : stringifyVal (.obj ((k, v) :: fs)) ++ rest =
          '\x7b' :: (stringifyFields ((k, v) :: fs) ++ '\x7d' :: rest) := by
        simp [stringifyVal]
      rw [hin]
      have he : parseMembers f (stringifyFields ((k, v) :: fs) ++ '\x7d' :: rest) =
          some ((k, v) :: fs, '\x7d' :: rest) := by
        refine parseMembers_complete ((k, v) :: fs) f ('\x7d' :: rest) (by simp) ?_ ?_
        · rw [hlen] at hf; omega
        · intro r' hcontra
          cases hcontra
      unfold parseValue
      simp +decide [stringifyFields_head_ne k v fs ('\x7d' :: rest), he, finishObj]

/-- A list that does not start with a comma fails the comma head test. -/
theorem headCharIs_false_of_ne (rest : List Char) (hrest : ∀ r', rest ≠ ',' :: r') :
    headCharIs rest ',' = false := by
  cases rest with
  | nil => rfl
  | cons c r' =>
    by_cases hc : c = ','
    · subst hc
      exact absurd rfl (hrest r')
    · simp [headCharIs, hc]

/-- The element reader is complete on serialized non-empty element lists
followed by anything that is not a comma. -/
theorem parseElems_complete : ∀ (l : List Json) (fuel : Nat) (rest : List Char),
    l ≠ [] →
    2 * (stringifyElems l).length + 2 ≤ fuel →
    (∀ r', rest ≠ ',' :: r') →
    parseElems fuel (stringifyElems l ++ rest) = some (l, rest)
  | [], _, _, hne, _, _ => absurd rfl hne
  | [v], fuel, rest, _, hf, hrest => by
    cases fuel with
    | zero => omega
    | succ f =>
      have hse : stringifyElems [v] = stringifyVal v := rfl
      rw [hse]
      unfold parseElems
      rw [parseValue_complete v f rest (by rw [hse] at hf; omega)]
      dsimp only
      rw [headCharIs_false_of_ne rest hrest]
      simp
  | v :: w :: ws, fuel, rest, _, hf, hrest => by
    cases fuel with
    | zero => omega
    | succ f =>
      have hse : stringifyElems (v :: w :: ws) =
          stringifyVal v ++ ',' :: stringifyElems (w :: ws) := rfl
      have hlen : (stringifyElems (v :: w :: ws)).length =
          (stringifyVal v).length + 1 + (stringifyElems (w :: ws)).length := by
        rw [hse]
        simp
        omega
      have hin : stringifyElems (v :: w :: ws) ++ rest =
          stringifyVal v ++ (',' :: (stringifyElems (w :: ws) ++ rest)) := by
        rw [hse]
        simp
      rw [hin]
      unfold parseElems
      rw [parseValue_complete v f (',' :: (stringifyElems (w :: ws) ++ rest))
        (by rw [hlen] at hf; omega)]
      dsimp only
      rw [show headCharIs (',' :: (stringifyElems (w :: ws) ++ rest)) ',' = true by rfl]
      simp only [if_true, List.tail_cons]
      rw [parseElems_complete (w :: ws) f rest (by simp)
        (by rw [hlen] at hf; omega) hrest]
      rfl

/-- The member reader is complete on serialized non-empty member lists
followed by anything that is not a comma. -/
theorem parseMembers_complete : ∀ (l : List (String × Json)) (fuel : Nat) (rest : List Char),
    l ≠ [] →
    2 * (stringifyFields l).length + 2 ≤ fuel →
    (∀ r', rest ≠ ',' :: r') →
    parseMembers fuel (stringifyFields l ++ rest) = some (l, rest)
  | [], _, _, hne, _, _ => absurd rfl hne
  | [(k, v)], fuel, rest, _, hf, hrest => by
    cases fuel with
    | zero => omega
    | succ f =>
      have hlen : (stringifyFields [(k, v)]).length =
          (quoteChars k).length + 1 + (stringifyVal v).length := by
        simp [stringifyFields]
        omega
      have hq : (quoteChars k).length = (escapeList k.data).length + 2 := by
        simp [quoteChars]
      have hin : stringifyFields [(k, v)] ++ rest =
          '"' :: (escapeList k.data ++ '"' :: (':' :: (stringifyVal v ++ rest))) := by
        simp [stringifyFields, quoteChars]
      rw [hin]
      unfold parseMembers
      rw [show headCharIs ('"' :: (escapeList k.data ++
        '"' :: (':' :: (stringifyVal v ++ rest)))) '"' = true by rfl]
      simp only [if_true, List.tail_cons]
      rw [parseStrBody_escapeList k.data (':' :: (stringifyVal v ++ rest))]
      dsimp only
      rw [show headCharIs (':' :: (stringifyVal v ++ rest)) ':' = true by rfl]
      simp only [if_true, List.tail_cons]
      rw [parseValue_complete v f rest (by rw [hlen, hq] at hf; omega)]
      dsimp only
      rw [headCharIs_false_of_ne rest hrest]
      simp [stringMk_data]
  | (k, v) :: g :: gs, fuel, rest, _, hf, hrest => by
    cases fuel with
    | zero => omega
    | succ f =>
      have hse : stringifyFields ((k, v) :: g :: gs) =
          quoteChars k ++ ':' :: stringifyVal v ++ ',' :: stringifyFields (g :: gs) := rfl
      have hlen : (stringifyFields ((k, v) :: g :: gs)).length =
          (quoteChars k).length + 1 + (stringifyVal v).length + 1 +
          (stringifyFields (g :: gs)).length := by
        rw [hse]
        simp
        omega
      have hq : (quoteChars k).length = (escapeList k.data).length + 2 := by
        simp [quoteChars]
      have hin : stringifyFields ((k, v) :: g :: gs) ++ rest =
          '"' :: (escapeList k.data ++ '"' ::
            (':' :: (stringifyVal v ++ (',' :: (stringifyFields (g :: gs) ++ rest))))) := by
        rw [hse]
        simp [quoteChars]
      rw [hin]
      unfold parseMembers
      rw [show headCharIs ('"' :: (escapeList k.data ++ '"' ::
        (':' :: (stringifyVal v ++ (',' :: (stringifyFields (g :: gs) ++ rest)))))) '"' = true
        by rfl]
      simp only [if_true, List.tail_cons]
      rw [parseStrBody_escapeList k.data
        (':' :: (stringifyVal v ++ (',' :: (stringifyFields (g :: gs) ++ rest))))]
      dsimp only
      rw [show headCharIs (':' :: (stringifyVal v ++
        (',' :: (stringifyFields (g :: gs) ++ rest)))) ':' = true by rfl]
      simp only [if_true, List.tail_cons]
      rw [parseValue_complete v f (',' :: (stringifyFields (g :: gs) ++ rest))
        (by rw [hlen, hq] at hf; omega)]
      dsimp only
      rw [show headCharIs (',' :: (stringifyFields (g :: gs) ++ rest)) ',' = true by rfl]
      simp only [if_true, List.tail_cons]
      rw [parseMembers_complete (g :: gs) f rest (by simp)
        (by rw [hlen] at hf; omega) hrest]
      simp [consMembers, stringMk_data]

end

/-- Reading back a serialized value yields the value. -/
theorem jsonParse_stringifyJson (v : Json) : jsonParse (stringifyJson v) = some v := by
  unfold jsonParse stringifyJson
  have hc := parseValue_complete v (2 * (stringifyVal v).length + 2) [] (by omega)
  rw [List.append_nil] at hc
  have hd : (String.mk (stringifyVal v)).data = stringifyVal v := rfl
  have hl : (String.mk (stringifyVal v)).length = (stringifyVal v).length := rfl
  rw [hd, hl, hc]

/-- C10: the storage obfuscation round-trips — for every value whose JSON
text is Latin-1, `decrypt (encrypt v)` returns `v` — and `decrypt` answers
`none` (a caught error, not a throw) whenever base64 decoding or JSON
reading fails. -/
theorem encryption_round_trip :
    (∀ v : Json, (stringifyJson v).data.all (fun c => c.toNat < 256) = true →
      ∃ e, encrypt v = some e ∧ decrypt e = some v) ∧
    (∀ s, atobStr s = none → decrypt s = none) ∧
    (∀ s t, atobStr s = some t → jsonParse t = none → decrypt s = none) := by
  refine ⟨?_, ?_, ?_⟩
  · intro v hl
    obtain ⟨h1, h2⟩ := atobStr_btoaStr (stringifyJson v) hl
    refine ⟨String.mk (encodeBytes ((stringifyJson v).data.map Char.toNat)), ?_, ?_⟩
    · unfold encrypt
      exact h1
    · unfold decrypt
      rw [h2]
      exact jsonParse_stringifyJson v
  · intro s h
    unfold decrypt
    rw [h]
  · intro s t h1 h2
    unfold decrypt
    rw [h1]
    dsimp only
    exact h2

/-- C10 witness: a concrete license-identity object round-trips, and two
concrete invalid inputs (bad base64, valid base64 of invalid JSON) decrypt
to `none`. -/
theorem encryption_round_trip_witness :
    (∃ e, encrypt identSample = some e ∧ decrypt e = some identSample) ∧
    decrypt "!!!" = none ∧
    decrypt "ew==" = none :=
  ⟨encryption_round_trip.1 identSample (by decide),
   encryption_round_trip.2.1 "!!!" (by decide),
   encryption_round_trip.2.2 "ew==" (String.mk ['\x7b']) (by decide) (by rfl)⟩
